import Mathlib

/-
Verification of the map-locator subsystem (package `mapservice`).

The Go source is shallowly embedded: images are explicit pixel buffers
(lists of byte values with a stride, as in Go's image.RGBA / image.Alpha),
machine integers are modelled by ℕ/ℤ (no arithmetic here ever approaches
64-bit overflow for well-formed inputs, which the theorems make explicit),
and float64 score arithmetic is modelled by ℚ (all comparisons in the code
are against constants that are exact in ℚ; no claim depends on float
rounding).
-/

namespace MapService

/-- Packed RGBA image: 4 bytes per pixel, row stride in bytes
(mirrors Go `image.RGBA` with `Pix`, `Stride` and bounds `w × h`). -/
structure RGBAImage where
  w : ℕ
  h : ℕ
  stride : ℕ
  pix : List ℕ
deriving DecidableEq, Repr

/-- Single-channel alpha image (mirrors Go `image.Alpha`). -/
structure AlphaImage where
  w : ℕ
  h : ℕ
  stride : ℕ
  pix : List ℕ
deriving DecidableEq, Repr

/-- `ProbePoint` from the source: a template sample relative to the probe's
top-left corner.  Coordinates and channels are Go `int`s, hence ℤ. -/
structure ProbePoint where
  x : ℤ
  y : ℤ
  r : ℤ
  g : ℤ
  b : ℤ
deriving DecidableEq, Repr

/-- `TemplateProbe` from the source. -/
structure TemplateProbe where
  width : ℕ
  height : ℕ
  points : List ProbePoint
deriving DecidableEq, Repr

/-- Canonical layout produced by Go's `image.NewRGBA`: stride is `4*w`,
every byte is in `[0,255]`, and the buffer has exactly `4*w*h` bytes. -/
def wfImage (img : RGBAImage) : Prop :=
  img.stride = 4 * img.w ∧ img.pix.length = 4 * img.w * img.h ∧
    ∀ v ∈ img.pix, v ≤ 255

/-- Canonical layout produced by Go's `image.NewAlpha`: stride is `w`. -/
def wfMask (mask : AlphaImage) : Prop :=
  mask.stride = mask.w

instance : DecidablePred wfImage := fun img => by
  unfold wfImage; infer_instance

instance : DecidablePred wfMask := fun mask => by
  unfold wfMask; infer_instance

/- ==========================================================
   Probe builder: TemplateProbe.UpdateFromMinimap
   ========================================================== -/

/-- Byte accessor on a pixel buffer; out-of-range reads default to 0
(the embedding only relies on the default where the source's own guards
have already excluded the access). -/
def byteAt (l : List ℕ) (i : ℕ) : ℕ :=
  l.getD i 0

/-- The chromatic-icon test of `UpdateFromMinimap`, with the source's branch
structure: the yellow check first (`minRG` via an if), then the blue check
only when the yellow check failed (`maxRG` via an if), threshold 40. -/
def isIconGo (r g b : ℤ) : Bool :=
  let isIcon1 : Bool :=
    if r > 100 ∧ g > 100 then
      decide ((if g < r then g else r) - b > 40)
    else false
  if isIcon1 = false ∧ b > 100 then
    decide (b - (if g > r then g else r) > 40)
  else isIcon1

/-- The per-pixel decision of `UpdateFromMinimap`, transcribed from the Go
loop body: skip when the mask byte is 0, skip when the minimap alpha is 0,
skip chromatic icons, otherwise keep the point. -/
def updatePixel (img : RGBAImage) (mask : AlphaImage) (x y : ℕ) :
    Option ProbePoint :=
  let maskOffset := y * mask.stride
  if byteAt mask.pix (maskOffset + x) = 0 then none
  else
    let offset := y * img.stride + x * 4
    if byteAt img.pix (offset + 3) = 0 then none
    else
      let r : ℤ := byteAt img.pix offset
      let g : ℤ := byteAt img.pix (offset + 1)
      let b : ℤ := byteAt img.pix (offset + 2)
      if isIconGo r g b then none
      else some ⟨x, y, r, g, b⟩

/-- `TemplateProbe.UpdateFromMinimap`: rebuilds the probe in one row-major
pass (y outer, x inner) over the minimap, appending exactly the pixels the
Go loop appends. -/
def updateFromMinimap (img : RGBAImage) (mask : AlphaImage) :
    TemplateProbe :=
  { width := img.w
    height := img.h
    points :=
      (List.range img.h).flatMap fun y =>
        (List.range img.w).filterMap fun x => updatePixel img mask x y }

/-- The claim's chromatic-icon predicate, written from the spec's words:
`(r>100 ∧ g>100 ∧ min(r,g)−b > 40) ∨ (b>100 ∧ b−max(r,g) > 40)`. -/
def chromaticIconSpec (r g b : ℤ) : Prop :=
  (r > 100 ∧ g > 100 ∧ min r g - b > 40) ∨ (b > 100 ∧ b - max r g > 40)

instance (r g b : ℤ) : Decidable (chromaticIconSpec r g b) := by
  unfold chromaticIconSpec; infer_instance

/-- Coordinate-based pixel accessors used by the claim's description of the
probe (canonical layout, no stride). -/
def specChannel (img : RGBAImage) (x y c : ℕ) : ℤ :=
  byteAt img.pix (4 * (y * img.w + x) + c)

/-- The claim's per-pixel condition: keep `(x,y)` exactly when the mask
value is non-zero, the minimap alpha is non-zero, and the pixel is not a
chromatic icon. -/
def specPixel (img : RGBAImage) (mask : AlphaImage) (x y : ℕ) :
    Option ProbePoint :=
  if byteAt mask.pix (y * mask.w + x) ≠ 0 ∧
      specChannel img x y 3 ≠ 0 ∧
      ¬ chromaticIconSpec (specChannel img x y 0)
        (specChannel img x y 1) (specChannel img x y 2) then
    some ⟨x, y, specChannel img x y 0, specChannel img x y 1,
      specChannel img x y 2⟩
  else none

/-- The claim's description of the rebuilt point list: the qualifying
pixels in row-major order, x inner. -/
def specProbePoints (img : RGBAImage) (mask : AlphaImage) :
    List ProbePoint :=
  (List.range img.h).flatMap fun y =>
    (List.range img.w).filterMap fun x => specPixel img mask x y

lemma isIconGo_iff (r g b : ℤ) :
    isIconGo r g b = true ↔ chromaticIconSpec r g b := by
  have hmin : (if g < r then g else r) = min r g := by
    split_ifs with h <;> omega
  have hmax : (if g > r then g else r) = max r g := by
    split_ifs with h <;> omega
  unfold isIconGo chromaticIconSpec
  simp only [hmin, hmax]
  by_cases h1 : r > 100 ∧ g > 100 <;> by_cases h3 : b > 100 <;>
    by_cases h2 : min r g - b > 40 <;> by_cases h4 : b - max r g > 40 <;>
      simp_all <;> (try split_ifs) <;> omega

lemma updatePixel_eq_specPixel (img : RGBAImage) (mask : AlphaImage)
    (hs : img.stride = 4 * img.w) (hms : mask.stride = mask.w) (x y : ℕ) :
    updatePixel img mask x y = specPixel img mask x y := by
  unfold updatePixel specPixel specChannel
  rw [hs, hms]
  have e0 : y * (4 * img.w) + x * 4 = 4 * (y * img.w + x) := by ring
  rw [e0]
  by_cases hm : byteAt mask.pix (y * mask.w + x) = 0
  · simp [hm]
  · by_cases ha : byteAt img.pix (4 * (y * img.w + x) + 3) = 0
    · simp [hm, ha]
    · by_cases hic : chromaticIconSpec
        (byteAt img.pix (4 * (y * img.w + x)))
        (byteAt img.pix (4 * (y * img.w + x) + 1))
        (byteAt img.pix (4 * (y * img.w + x) + 2))
      · have hic' := (isIconGo_iff _ _ _).mpr hic
        simp [hm, ha, hic, hic']
      · have hic' := hic
        rw [← isIconGo_iff] at hic'
        simp [hm, ha, hic, hic']

/-- C5.  After `UpdateFromMinimap` on a minimap and mask of identical
dimensions (with their canonical strides), the probe's point list is
exactly the row-major list of pixels that pass the annulus mask, have
non-zero alpha, and are not chromatic icons in the claim's sense; the
probe records the minimap's dimensions. -/
theorem updateFromMinimap_filter_spec (img : RGBAImage) (mask : AlphaImage)
    (hi : wfImage img) (hm : wfMask mask)
    (_hw : img.w = mask.w) (_hh : img.h = mask.h) :
    (updateFromMinimap img mask).points = specProbePoints img mask ∧
      (updateFromMinimap img mask).width = img.w ∧
      (updateFromMinimap img mask).height = img.h := by
  refine ⟨?_, rfl, rfl⟩
  unfold updateFromMinimap specProbePoints
  simp only
  congr 1
  funext y
  congr 1
  funext x
  exact updatePixel_eq_specPixel img mask hi.1 hm x y

/-- Witness for C5 on a concrete 2×2 minimap exercising every filter:
pixel (0,0) is masked out, (1,0) has alpha 0, (0,1) is a yellow icon,
(1,1) is kept. -/
theorem updateFromMinimap_filter_spec_witness :
    (updateFromMinimap
        ⟨2, 2, 8, [9, 9, 9, 255, 8, 8, 8, 0,
                   200, 200, 10, 255, 5, 6, 7, 255]⟩
        ⟨2, 2, 2, [0, 255, 255, 255]⟩).points =
      specProbePoints
        ⟨2, 2, 8, [9, 9, 9, 255, 8, 8, 8, 0,
                   200, 200, 10, 255, 5, 6, 7, 255]⟩
        ⟨2, 2, 2, [0, 255, 255, 255]⟩ ∧
      specProbePoints
        ⟨2, 2, 8, [9, 9, 9, 255, 8, 8, 8, 0,
                   200, 200, 10, 255, 5, 6, 7, 255]⟩
        ⟨2, 2, 2, [0, 255, 255, 255]⟩ = [⟨1, 1, 5, 6, 7⟩] := by
  constructor
  · exact (updateFromMinimap_filter_spec _ _
      (by decide) (by decide) rfl rfl).1
  · decide

/- ==========================================================
   Matcher: MatchProbe
   ========================================================== -/

/-- `math.MaxInt64`, the initial value of the running best SAD. -/
def maxInt64 : ℕ := 9223372036854775807

/-- The values visited by a Go loop `for v := s; v < e; v += st`. -/
def stepRange (s e st : ℕ) : List ℕ :=
  (List.range ((e - s + st - 1) / st)).map fun k => s + k * st

/-- Scan-order candidate list of `matchRect`: y outer, x inner. -/
def rectCandidates (startX endX startY endY step : ℕ) : List (ℕ × ℕ) :=
  (stepRange startY endY step).flatMap fun y =>
    (stepRange startX endX step).map fun x => (x, y)

/-- One sampled probe point's score contribution at candidate base offset
`base`: `none` when the offset guard (`off < 0 || off+2 >= len`) rejects
the read, otherwise the absolute RGB difference plus the nonlinear chroma
penalty (threshold 45, weight 15). -/
def pointContribution (img : RGBAImage) (base : ℤ) (p : ProbePoint) :
    Option ℕ :=
  let off := base + p.y * (img.stride : ℤ) + p.x * 4
  if 0 ≤ off ∧ off + 2 < (img.pix.length : ℤ) then
    let r : ℤ := byteAt img.pix off.toNat
    let g : ℤ := byteAt img.pix (off.toNat + 1)
    let b : ℤ := byteAt img.pix (off.toNat + 2)
    let baseDiff :=
      (r - p.r).natAbs + (g - p.g).natAbs + (b - p.b).natAbs
    let chromaDiff :=
      ((p.r - p.g) - (r - g)).natAbs + ((p.b - p.g) - (b - g)).natAbs
    let penalty := if chromaDiff > 45 then (chromaDiff - 45) * 15 else 0
    some (baseDiff + penalty)
  else none

/-- The subsampled probe points visited by
`for i := 0; i < len(points); i += probeStep`. -/
def sampledPoints (points : List ProbePoint) (probeStep : ℕ) :
    List ProbePoint :=
  (stepRange 0 points.length probeStep).filterMap fun i => points[i]?

/-- Full (non-early-terminated) SAD at candidate `(x, y)`.  The Go loop
aborts the inner sum as soon as it exceeds the current best and skips
guarded reads; aborting never changes which candidate gets recorded (a
partial sum already above the best leaves the candidate unrecorded, as
does the `MaxInt32` poisoning after the 85% guard), so the embedding
sums in full. -/
def scoreAt (img : RGBAImage) (probe : TemplateProbe) (probeStep x y : ℕ) :
    ℕ :=
  ((sampledPoints probe.points probeStep).filterMap
    (pointContribution img ((y * img.stride + x * 4 : ℕ) : ℤ))).sum

/-- Number of sampled probe points whose read passes the offset guard at
candidate `(x, y)` (Go's `validCount`). -/
def validCountAt (img : RGBAImage) (probe : TemplateProbe)
    (probeStep x y : ℕ) : ℕ :=
  ((sampledPoints probe.points probeStep).filterMap
    (pointContribution img ((y * img.stride + x * 4 : ℕ) : ℤ))).length

/-- The candidate scan of `matchRect`: record the first strictly better
candidate (scan-order tie-breaking), skipping candidates that fail the
85% validity guard.  Accumulator is `(bestX, bestY, bestSAD)`. -/
def bestFold (img : RGBAImage) (probe : TemplateProbe)
    (probeStep minReq : ℕ) :
    List (ℕ × ℕ) → ℕ × ℕ × ℕ → ℕ × ℕ × ℕ
  | [], acc => acc
  | (x, y) :: rest, (bx, b0, bsad) =>
    if validCountAt img probe probeStep x y < minReq then
      bestFold img probe probeStep minReq rest (bx, b0, bsad)
    else if scoreAt img probe probeStep x y < bsad then
      bestFold img probe probeStep minReq rest
        (x, y, scoreAt img probe probeStep x y)
    else bestFold img probe probeStep minReq rest (bx, b0, bsad)

/-- `matchRect` from `MatchProbe`: scan the rectangle and return
`(localX, localY, localMinSAD)`. -/
def matchRect (img : RGBAImage) (probe : TemplateProbe)
    (step probeStep startX endX startY endY : ℕ) : ℕ × ℕ × ℕ :=
  let minReq := (probe.points.length * 85) / (probeStep * 100)
  bestFold img probe probeStep minReq
    (rectCandidates startX endX startY endY step) (0, 0, maxInt64)

/-- The 8-worker row-band decomposition of the parallel scan, reduced in
worker order.  (The Go reduction is lock-acquisition-order dependent for
exact SAD ties between bands; every theorem stated below is insensitive
to which tied band wins.) -/
def parallelScan (img : RGBAImage) (probe : TemplateProbe)
    (step probeStep maxX maxY : ℕ) : ℕ × ℕ × ℕ :=
  let numWorkers := 8
  let rowsPerWorker := (maxY / step + 1 + numWorkers - 1) / numWorkers
  (List.range numWorkers).foldl
    (fun acc i =>
      let yStart := i * rowsPerWorker * step
      let yEndRaw := (i + 1) * rowsPerWorker * step
      let yEnd := if yEndRaw > maxY then maxY + 1 else yEndRaw
      let r := matchRect img probe step probeStep 0 maxX yStart yEnd
      if r.2.2 < acc.2.2 then r else acc)
    (0, 0, maxInt64)

/-- `calcAvgDiff`: mean per-channel difference (smaller is better). -/
def calcAvgDiff (sad count : ℕ) : ℚ :=
  if count = 0 then 0 else (sad : ℚ) / ((count : ℚ) * 3)

/-- `MatchProbe`: degenerate checks, then the serial or 8-band parallel
scan, then the SAD → avg-diff conversion. -/
def matchProbe (img : RGBAImage) (probe : TemplateProbe)
    (step probeStep : ℕ) (useConcurrency : Bool) : ℕ × ℕ × ℚ :=
  if img.w ≤ probe.width ∨ img.h ≤ probe.height then (0, 0, 0)
  else
    let maxX := img.w - probe.width
    let maxY := img.h - probe.height
    let validPixels := probe.points.length / probeStep
    if validPixels = 0 then (0, 0, 0)
    else
      let r :=
        if useConcurrency then
          parallelScan img probe step probeStep maxX maxY
        else matchRect img probe step probeStep 0 maxX 0 maxY
      (r.1, r.2.1, calcAvgDiff r.2.2 validPixels)

/-- Probe well-formedness: every point lies inside the declared
`width × height` rectangle with byte-valued channels — exactly what
`UpdateFromMinimap` produces — and the point list is far too short for
the 64-bit score accumulator to saturate. -/
def wfProbe (probe : TemplateProbe) : Prop :=
  (∀ p ∈ probe.points,
    0 ≤ p.x ∧ p.x < probe.width ∧ 0 ≤ p.y ∧ p.y < probe.height ∧
    0 ≤ p.r ∧ p.r ≤ 255 ∧ 0 ≤ p.g ∧ p.g ≤ 255 ∧ 0 ≤ p.b ∧ p.b ≤ 255) ∧
  probe.points.length ≤ 2 ^ 32

/-- Pixel channel read in coordinate form (canonical layout). -/
def pixelChannelZ (img : RGBAImage) (x y : ℤ) (c : ℕ) : ℤ :=
  byteAt img.pix (4 * (y.toNat * img.w + x.toNat) + c)

/-- The claim's value for C2: the exact mean absolute per-channel
difference between the probe and the haystack at `(x, y)` — sum of
`|Ir−pr|+|Ig−pg|+|Ib−pb|` over all probe points, divided by 3 times the
number of probe points.  No chroma penalty. -/
def exactMeanAbsDiff (img : RGBAImage) (probe : TemplateProbe) (x y : ℕ) :
    ℚ :=
  (((probe.points.map fun p =>
      (pixelChannelZ img (x + p.x) (y + p.y) 0 - p.r).natAbs +
      (pixelChannelZ img (x + p.x) (y + p.y) 1 - p.g).natAbs +
      (pixelChannelZ img (x + p.x) (y + p.y) 2 - p.b).natAbs).sum : ℕ) : ℚ) /
    ((probe.points.length : ℚ) * 3)

/-- One probe point's chroma-penalised term at `(x, y)` in coordinate
form. -/
def chromaTermZ (img : RGBAImage) (p : ProbePoint) (x y : ℕ) : ℕ :=
  let r := pixelChannelZ img (x + p.x) (y + p.y) 0
  let g := pixelChannelZ img (x + p.x) (y + p.y) 1
  let b := pixelChannelZ img (x + p.x) (y + p.y) 2
  let baseDiff := (r - p.r).natAbs + (g - p.g).natAbs + (b - p.b).natAbs
  let chromaDiff :=
    ((p.r - p.g) - (r - g)).natAbs + ((p.b - p.g) - (b - g)).natAbs
  baseDiff + (if chromaDiff > 45 then (chromaDiff - 45) * 15 else 0)

/-- The chroma-penalised full score at `(x, y)` in coordinate form: the
per-point terms of `exactMeanAbsDiff` plus the nonlinear chroma penalty
`max(0, chromaDiff − 45) · 15`. -/
def chromaScoreFull (img : RGBAImage) (probe : TemplateProbe) (x y : ℕ) :
    ℕ :=
  (probe.points.map fun p => chromaTermZ img p x y).sum

/- ==========================================================
   Matcher lemmas
   ========================================================== -/

lemma mem_stepRange {s e st v : ℕ} (hst : 1 ≤ st)
    (hv : v ∈ stepRange s e st) : s ≤ v ∧ v < e := by
  unfold stepRange at hv
  rcases List.mem_map.mp hv with ⟨k, hk, rfl⟩
  rw [List.mem_range] at hk
  have h1 : ((e - s + st - 1) / st) * st ≤ e - s + st - 1 :=
    Nat.div_mul_le_self _ _
  have h2 : (k + 1) * st ≤ ((e - s + st - 1) / st) * st :=
    Nat.mul_le_mul_right _ hk
  rw [Nat.succ_mul] at h2
  omega

lemma zero_mem_stepRange {e st : ℕ} (he : 0 < e) (hst : 1 ≤ st) :
    0 ∈ stepRange 0 e st := by
  unfold stepRange
  refine List.mem_map.mpr ⟨0, List.mem_range.mpr ?_, by simp⟩
  have : 1 * st ≤ e - 0 + st - 1 := by omega
  exact Nat.lt_of_lt_of_le Nat.zero_lt_one
    ((Nat.le_div_iff_mul_le (by omega)).mpr this)

lemma mem_rectCandidates {startX endX startY endY step x y : ℕ}
    (hst : 1 ≤ step)
    (h : (x, y) ∈ rectCandidates startX endX startY endY step) :
    startX ≤ x ∧ x < endX ∧ startY ≤ y ∧ y < endY := by
  unfold rectCandidates at h
  rcases List.mem_flatMap.mp h with ⟨y', hy', hx⟩
  rcases List.mem_map.mp hx with ⟨x', hx', heq⟩
  obtain ⟨rfl, rfl⟩ := Prod.mk.injEq .. ▸ heq
  obtain ⟨ha, hb⟩ := mem_stepRange hst hx'
  obtain ⟨hc, hd⟩ := mem_stepRange hst hy'
  exact ⟨ha, hb, hc, hd⟩

lemma origin_mem_rectCandidates {endX endY step : ℕ}
    (h1 : 0 < endX) (h2 : 0 < endY) (hst : 1 ≤ step) :
    ((0, 0) : ℕ × ℕ) ∈ rectCandidates 0 endX 0 endY step :=
  List.mem_flatMap.mpr ⟨0, zero_mem_stepRange h2 hst,
    List.mem_map.mpr ⟨0, zero_mem_stepRange h1 hst, rfl⟩⟩

lemma filterMap_getElem_range {α : Type} (l : List α) :
    (List.range l.length).filterMap (fun i => l[i]?) = l := by
  induction l with
  | nil => simp
  | cons a t ih =>
    rw [List.length_cons, List.range_succ_eq_map, List.filterMap_cons]
    simp only [List.getElem?_cons_zero, List.filterMap_map]
    have he : ((fun i => (a :: t)[i]?) ∘ Nat.succ) = fun i => t[i]? := by
      funext i
      simp
    rw [he, ih]

lemma sampledPoints_one (pts : List ProbePoint) :
    sampledPoints pts 1 = pts := by
  unfold sampledPoints stepRange
  simp only [Nat.add_sub_cancel, Nat.sub_zero, Nat.div_one, Nat.zero_add,
    Nat.mul_one]
  have : (List.range pts.length).map (fun k => k) = List.range pts.length :=
    List.map_id _
  rw [this]
  exact filterMap_getElem_range pts

lemma filterMap_eq_map_of_some {α β : Type} (f : α → Option β) (g : α → β) :
    ∀ l : List α, (∀ a ∈ l, f a = some (g a)) → l.filterMap f = l.map g
  | [] => by simp
  | a :: t => fun h => by
    rw [List.filterMap_cons, h a (by simp), List.map_cons]
    exact congrArg (g a :: ·)
      (filterMap_eq_map_of_some f g t fun x hx => h x (by simp [hx]))

lemma byteAt_le {l : List ℕ} (hb : ∀ v ∈ l, v ≤ 255) (i : ℕ) :
    byteAt l i ≤ 255 := by
  unfold byteAt
  rcases Nat.lt_or_ge i l.length with h | h
  · rw [List.getD_eq_getElem l 0 h]
    exact hb _ (List.getElem_mem h)
  · rw [List.getD_eq_default l 0 h]
    omega

/-- For a well-formed image and a probe point inside the probe rectangle,
the offset guard passes at every in-range candidate, and the offset-based
read computes exactly the coordinate-form chroma term. -/
lemma pointContribution_coord (img : RGBAImage) (probe : TemplateProbe)
    (hs : img.stride = 4 * img.w)
    (hlen : img.pix.length = 4 * img.w * img.h)
    (p : ProbePoint)
    (hp : 0 ≤ p.x ∧ p.x < (probe.width : ℤ) ∧
          0 ≤ p.y ∧ p.y < (probe.height : ℤ))
    (x y : ℕ) (hx : x < img.w - probe.width) (hy : y < img.h - probe.height) :
    pointContribution img ((y * img.stride + x * 4 : ℕ) : ℤ) p =
      some (chromaTermZ img p x y) := by
  obtain ⟨hx0, hx1, hy0, hy1⟩ := hp
  have hpa : p.x = (p.x.toNat : ℤ) := (Int.toNat_of_nonneg hx0).symm
  have hpb : p.y = (p.y.toNat : ℤ) := (Int.toNat_of_nonneg hy0).symm
  set a := p.x.toNat with ha
  set b := p.y.toNat with hb
  have ha1 : a < probe.width := by
    have : (a : ℤ) < (probe.width : ℤ) := hpa ▸ hx1
    exact_mod_cast this
  have hb1 : b < probe.height := by
    have : (b : ℤ) < (probe.height : ℤ) := hpb ▸ hy1
    exact_mod_cast this
  have haw : x + a + 2 ≤ img.w := by omega
  have hbh : y + b + 2 ≤ img.h := by omega
  have hoff : ((y * img.stride + x * 4 : ℕ) : ℤ) + p.y * (img.stride : ℤ) +
      p.x * 4 = ((4 * img.w * (y + b) + 4 * (x + a) : ℕ) : ℤ) := by
    rw [hpa, hpb, hs]
    push_cast
    ring
  have hfin : 4 * img.w * (y + b) + (4 * (x + a) + 2) < 4 * img.w * img.h := by
    have e1 : 4 * img.w * (y + b) + 8 * img.w ≤ 4 * img.w * img.h := by
      calc 4 * img.w * (y + b) + 8 * img.w
          = 4 * img.w * (y + b + 2) := by ring
        _ ≤ 4 * img.w * img.h := Nat.mul_le_mul_left _ hbh
    have e2 : 4 * (x + a) + 2 < 8 * img.w := by omega
    calc 4 * img.w * (y + b) + (4 * (x + a) + 2)
        < 4 * img.w * (y + b) + 8 * img.w := by omega
      _ ≤ 4 * img.w * img.h := e1
  unfold pointContribution
  rw [hoff]
  rw [if_pos ?hg]
  case hg =>
    refine ⟨Int.natCast_nonneg _, ?_⟩
    rw [hlen]
    have : ((4 * img.w * (y + b) + 4 * (x + a) : ℕ) : ℤ) + 2 =
        ((4 * img.w * (y + b) + 4 * (x + a) + 2 : ℕ) : ℤ) := by push_cast; ring
    rw [this]
    exact_mod_cast (by omega : 4 * img.w * (y + b) + 4 * (x + a) + 2 <
      4 * img.w * img.h)
  have htn : ((4 * img.w * (y + b) + 4 * (x + a) : ℕ) : ℤ).toNat =
      4 * ((y + b) * img.w + (x + a)) := by
    rw [Int.toNat_natCast]
    ring
  rw [htn]
  unfold chromaTermZ pixelChannelZ
  have hYt : ((y : ℤ) + p.y).toNat = y + b := by
    rw [hpb]; omega
  have hXt : ((x : ℤ) + p.x).toNat = x + a := by
    rw [hpa]; omega
  rw [hYt, hXt]
  simp only [Nat.add_zero]

/-- Any point contribution is at most 15390 when the image bytes and the
probe channels are byte-valued. -/
lemma pointContribution_le (img : RGBAImage)
    (hbytes : ∀ v ∈ img.pix, v ≤ 255) (p : ProbePoint)
    (hc : 0 ≤ p.r ∧ p.r ≤ 255 ∧ 0 ≤ p.g ∧ p.g ≤ 255 ∧ 0 ≤ p.b ∧ p.b ≤ 255)
    (base : ℤ) {v : ℕ} (hv : pointContribution img base p = some v) :
    v ≤ 15390 := by
  have hr := byteAt_le hbytes (base + p.y * (img.stride : ℤ) + p.x * 4).toNat
  have hgg := byteAt_le hbytes
    ((base + p.y * (img.stride : ℤ) + p.x * 4).toNat + 1)
  have hbb := byteAt_le hbytes
    ((base + p.y * (img.stride : ℤ) + p.x * 4).toNat + 2)
  simp only [pointContribution] at hv
  split_ifs at hv with h1 h2
  all_goals
    simp only [Option.some.injEq] at hv
    subst hv
    omega

/-- `bestFold` preserves any predicate that holds of the accumulator and
of every candidate paired with its full score. -/
lemma bestFold_pres (img : RGBAImage) (probe : TemplateProbe)
    (ps mr : ℕ) (P : ℕ × ℕ × ℕ → Prop) :
    ∀ cands acc, P acc →
      (∀ c ∈ cands, P (c.1, c.2, scoreAt img probe ps c.1 c.2)) →
      P (bestFold img probe ps mr cands acc)
  | [], acc => fun hacc _ => hacc
  | (x, y) :: rest, (bx, b0, bsad) => fun hacc hc => by
    unfold bestFold
    split_ifs with h1 h2
    · exact bestFold_pres img probe ps mr P rest (bx, b0, bsad) hacc
        fun c hcm => hc c (by simp [hcm])
    · exact bestFold_pres img probe ps mr P rest
        (x, y, scoreAt img probe ps x y) (hc (x, y) (by simp))
        fun c hcm => hc c (by simp [hcm])
    · exact bestFold_pres img probe ps mr P rest (bx, b0, bsad) hacc
        fun c hcm => hc c (by simp [hcm])

/-- With full sampling (`probeStep = 1`), a well-formed image and probe,
offset-based scoring at an in-range candidate equals the coordinate-form
chroma score, and every sampled read passes the guard. -/
lemma scoreAt_one_eq_chromaFull (img : RGBAImage) (probe : TemplateProbe)
    (hi : wfImage img) (hp : wfProbe probe)
    (x y : ℕ) (hx : x < img.w - probe.width)
    (hy : y < img.h - probe.height) :
    scoreAt img probe 1 x y = chromaScoreFull img probe x y ∧
      validCountAt img probe 1 x y = probe.points.length := by
  have hmap : probe.points.filterMap
      (pointContribution img ((y * img.stride + x * 4 : ℕ) : ℤ)) =
      probe.points.map fun p => chromaTermZ img p x y := by
    refine filterMap_eq_map_of_some _ _ _ fun p hpm => ?_
    obtain ⟨hb, -⟩ := hp
    obtain ⟨h1, h2, h3, h4, -⟩ := hb p hpm
    exact pointContribution_coord img probe hi.1 hi.2.1 p
      ⟨h1, h2, h3, h4⟩ x y hx hy
  constructor
  · unfold scoreAt
    rw [sampledPoints_one, hmap]
    rfl
  · unfold validCountAt
    rw [sampledPoints_one, hmap, List.length_map]

/-- Each coordinate-form chroma term is at most 15390 for byte-valued
data at an in-range candidate. -/
lemma chromaTermZ_le (img : RGBAImage) (probe : TemplateProbe)
    (hi : wfImage img) (hp : wfProbe probe) (p : ProbePoint)
    (hpm : p ∈ probe.points) (x y : ℕ) (hx : x < img.w - probe.width)
    (hy : y < img.h - probe.height) :
    chromaTermZ img p x y ≤ 15390 := by
  obtain ⟨hb, -⟩ := hp
  obtain ⟨h1, h2, h3, h4, hch⟩ := hb p hpm
  have hcoord := pointContribution_coord img probe hi.1 hi.2.1 p
    ⟨h1, h2, h3, h4⟩ x y hx hy
  exact pointContribution_le img hi.2.2 p hch _ hcoord

/-- The full chroma score of a well-formed probe never reaches the
`MaxInt64` initial best. -/
lemma chromaScoreFull_lt_maxInt64 (img : RGBAImage) (probe : TemplateProbe)
    (hi : wfImage img) (hp : wfProbe probe) (x y : ℕ)
    (hx : x < img.w - probe.width) (hy : y < img.h - probe.height) :
    chromaScoreFull img probe x y < maxInt64 := by
  have hsum : chromaScoreFull img probe x y ≤
      probe.points.length * 15390 := by
    unfold chromaScoreFull
    have := List.sum_le_card_nsmul
      (probe.points.map fun p => chromaTermZ img p x y) 15390
      (fun v hv => by
        rcases List.mem_map.mp hv with ⟨p, hpm, rfl⟩
        exact chromaTermZ_le img probe hi hp p hpm x y hx hy)
    simpa [smul_eq_mul] using this
  have hlen : probe.points.length ≤ 2 ^ 32 := hp.2
  have : probe.points.length * 15390 ≤ 2 ^ 32 * 15390 :=
    Nat.mul_le_mul_right _ hlen
  unfold maxInt64
  omega

/-- The running best SAD never increases, and ends at or below the score
of every guard-passing candidate. -/
lemma bestFold_le (img : RGBAImage) (probe : TemplateProbe) (ps mr : ℕ) :
    ∀ cands bx b0 bsad,
      (bestFold img probe ps mr cands (bx, b0, bsad)).2.2 ≤ bsad ∧
      ∀ x y, (x, y) ∈ cands → mr ≤ validCountAt img probe ps x y →
        (bestFold img probe ps mr cands (bx, b0, bsad)).2.2 ≤
          scoreAt img probe ps x y
  | [], bx, b0, bsad => by
    refine ⟨le_refl _, fun x y hm _ => absurd hm (by simp)⟩
  | (x, y) :: rest, bx, b0, bsad => by
    unfold bestFold
    split_ifs with h1 h2
    · obtain ⟨ihm, ihc⟩ := bestFold_le img probe ps mr rest bx b0 bsad
      refine ⟨ihm, fun u v hcm hcv => ?_⟩
      rcases List.mem_cons.mp hcm with hhd | htl
      · obtain ⟨rfl, rfl⟩ := Prod.mk.injEq .. ▸ hhd
        omega
      · exact ihc u v htl hcv
    · obtain ⟨ihm, ihc⟩ := bestFold_le img probe ps mr rest x y
        (scoreAt img probe ps x y)
      refine ⟨le_trans ihm (le_of_lt h2), fun u v hcm hcv => ?_⟩
      rcases List.mem_cons.mp hcm with hhd | htl
      · obtain ⟨rfl, rfl⟩ := Prod.mk.injEq .. ▸ hhd
        exact ihm
      · exact ihc u v htl hcv
    · obtain ⟨ihm, ihc⟩ := bestFold_le img probe ps mr rest bx b0 bsad
      refine ⟨ihm, fun u v hcm hcv => ?_⟩
      rcases List.mem_cons.mp hcm with hhd | htl
      · obtain ⟨rfl, rfl⟩ := Prod.mk.injEq .. ▸ hhd
        exact le_trans ihm (by omega)
      · exact ihc u v htl hcv

/- ==========================================================
   Matcher theorems (C2, C4, C8, C10)
   ========================================================== -/

/-- A 2×2 all-black haystack. -/
def img2x2zero : RGBAImage :=
  ⟨2, 2, 8, List.replicate 16 0⟩

/-- A one-point pure-red 1×1 probe. -/
def probeRed1 : TemplateProbe :=
  ⟨1, 1, [⟨0, 0, 255, 0, 0⟩]⟩

/-- C2, counterexample.  On the all-black 2×2 haystack with a single
pure-red probe point, serial full-coverage `MatchProbe` returns
`avg_diff = 1135` (the chroma penalty is included in the score), while
the exact mean absolute per-channel difference at the returned position
`(0,0)` is `255/3 = 85`. -/
theorem matchProbe_chroma_penalty_counterexample :
    matchProbe img2x2zero probeRed1 1 1 false = (0, 0, (1135 : ℚ)) ∧
      exactMeanAbsDiff img2x2zero probeRed1 0 0 = 85 ∧
      (1135 : ℚ) ≠ 85 := by
  have h1 : matchRect img2x2zero probeRed1 1 1 0 1 0 1 = (0, 0, 3405) := by
    decide
  have h2 : (probeRed1.points.map fun p =>
      (pixelChannelZ img2x2zero ((0 : ℕ) + p.x) ((0 : ℕ) + p.y) 0 -
        p.r).natAbs +
      (pixelChannelZ img2x2zero ((0 : ℕ) + p.x) ((0 : ℕ) + p.y) 1 -
        p.g).natAbs +
      (pixelChannelZ img2x2zero ((0 : ℕ) + p.x) ((0 : ℕ) + p.y) 2 -
        p.b).natAbs).sum = 255 := by decide
  refine ⟨?_, ?_, by norm_num⟩
  · have hM : matchProbe img2x2zero probeRed1 1 1 false =
        (0, 0, calcAvgDiff 3405 1) := by
      simp only [matchProbe]
      rw [if_neg (show ¬ (img2x2zero.w ≤ probeRed1.width ∨
            img2x2zero.h ≤ probeRed1.height) by decide),
        if_neg (show ¬ (probeRed1.points.length / 1 = 0) by decide),
        if_neg Bool.false_ne_true]
      have e1 : img2x2zero.w - probeRed1.width = 1 := by decide
      have e2 : img2x2zero.h - probeRed1.height = 1 := by decide
      have e3 : probeRed1.points.length / 1 = 1 := by decide
      rw [e1, e2, e3, h1]
    rw [hM]
    norm_num [calcAvgDiff]
  · unfold exactMeanAbsDiff
    rw [h2]
    norm_num [probeRed1]

/-- C2, amended.  With `step = 1`, `probe_step = 1`, `parallel = false`,
a well-formed byte-valued haystack strictly larger than the probe, and a
non-empty probe whose points lie in the declared probe rectangle, the
returned `avg_diff` equals the full chroma-penalised score at the
returned `(x, y)` divided by `3 ·` (number of probe points): the exact
per-point term is `|Ir−pr|+|Ig−pg|+|Ib−pb| + max(0, chroma_diff−45)·15`,
not the plain absolute difference. -/
theorem matchProbe_avgDiff_exact_score (img : RGBAImage)
    (probe : TemplateProbe) (hi : wfImage img) (hp : wfProbe probe)
    (hne : probe.points ≠ []) (hw : probe.width < img.w)
    (hh : probe.height < img.h) :
    (matchProbe img probe 1 1 false).2.2 =
      (chromaScoreFull img probe (matchProbe img probe 1 1 false).1
        (matchProbe img probe 1 1 false).2.1 : ℚ) /
      ((probe.points.length : ℚ) * 3) := by
  have hmaxX : 0 < img.w - probe.width := by omega
  have hmaxY : 0 < img.h - probe.height := by omega
  have hlen : probe.points.length ≠ 0 := by
    simpa using hne
  have hnd : ¬ (img.w ≤ probe.width ∨ img.h ≤ probe.height) := by omega
  have hM : matchProbe img probe 1 1 false =
      ((matchRect img probe 1 1 0 (img.w - probe.width) 0
          (img.h - probe.height)).1,
        (matchRect img probe 1 1 0 (img.w - probe.width) 0
          (img.h - probe.height)).2.1,
        calcAvgDiff (matchRect img probe 1 1 0 (img.w - probe.width) 0
          (img.h - probe.height)).2.2 probe.points.length) := by
    simp only [matchProbe, Nat.div_one]
    rw [if_neg hnd, if_neg hlen]
    simp
  have hvc00 := scoreAt_one_eq_chromaFull img probe hi hp 0 0 hmaxX hmaxY
  have hmr : (probe.points.length * 85) / (1 * 100) ≤
      validCountAt img probe 1 0 0 := by
    rw [hvc00.2]
    calc (probe.points.length * 85) / (1 * 100)
        ≤ (probe.points.length * 100) / (1 * 100) :=
          Nat.div_le_div_right (Nat.mul_le_mul_left _ (by omega))
      _ = probe.points.length := by
          rw [one_mul, Nat.mul_div_cancel _ (by omega)]
  have hle : (matchRect img probe 1 1 0 (img.w - probe.width) 0
      (img.h - probe.height)).2.2 ≤ scoreAt img probe 1 0 0 := by
    unfold matchRect
    exact (bestFold_le img probe 1 _ _ 0 0 maxInt64).2 0 0
      (origin_mem_rectCandidates hmaxX hmaxY (le_refl 1)) hmr
  have hlt : (matchRect img probe 1 1 0 (img.w - probe.width) 0
      (img.h - probe.height)).2.2 < maxInt64 := by
    calc (matchRect img probe 1 1 0 (img.w - probe.width) 0
        (img.h - probe.height)).2.2
        ≤ scoreAt img probe 1 0 0 := hle
      _ = chromaScoreFull img probe 0 0 := hvc00.1
      _ < maxInt64 :=
          chromaScoreFull_lt_maxInt64 img probe hi hp 0 0 hmaxX hmaxY
  have hP : (matchRect img probe 1 1 0 (img.w - probe.width) 0
        (img.h - probe.height)) = (0, 0, maxInt64) ∨
      ((matchRect img probe 1 1 0 (img.w - probe.width) 0
          (img.h - probe.height)).2.2 =
        scoreAt img probe 1
          (matchRect img probe 1 1 0 (img.w - probe.width) 0
            (img.h - probe.height)).1
          (matchRect img probe 1 1 0 (img.w - probe.width) 0
            (img.h - probe.height)).2.1 ∧
        (matchRect img probe 1 1 0 (img.w - probe.width) 0
          (img.h - probe.height)).1 < img.w - probe.width ∧
        (matchRect img probe 1 1 0 (img.w - probe.width) 0
          (img.h - probe.height)).2.1 < img.h - probe.height) := by
    unfold matchRect
    refine bestFold_pres img probe 1 _
      (fun acc => acc = (0, 0, maxInt64) ∨
        (acc.2.2 = scoreAt img probe 1 acc.1 acc.2.1 ∧
          acc.1 < img.w - probe.width ∧ acc.2.1 < img.h - probe.height))
      _ _ (Or.inl rfl) fun c hcm => ?_
    obtain ⟨x, y⟩ := c
    obtain ⟨-, hxlt, -, hylt⟩ := mem_rectCandidates (le_refl 1) hcm
    exact Or.inr ⟨rfl, hxlt, hylt⟩
  rcases hP with hinit | ⟨hsc, hxb, hyb⟩
  · rw [hinit] at hlt
    simp [maxInt64] at hlt
  · rw [hM]
    simp only
    rw [calcAvgDiff, if_neg hlen, hsc,
      (scoreAt_one_eq_chromaFull img probe hi hp _ _ hxb hyb).1]

/-- Witness for C2's amended theorem at the concrete counterexample
input: the returned avg-diff equals the chroma-penalised score mean. -/
theorem matchProbe_avgDiff_exact_score_witness :
    (matchProbe img2x2zero probeRed1 1 1 false).2.2 =
      (chromaScoreFull img2x2zero probeRed1
        (matchProbe img2x2zero probeRed1 1 1 false).1
        (matchProbe img2x2zero probeRed1 1 1 false).2.1 : ℚ) /
      ((probeRed1.points.length : ℚ) * 3) :=
  matchProbe_avgDiff_exact_score img2x2zero probeRed1
    (by decide) (by constructor <;> decide) (by decide)
    (by decide) (by decide)

/-- A 2×2 one-point probe, the same size as `img2x2zero`. -/
def probe2x2one : TemplateProbe :=
  ⟨2, 2, [⟨0, 0, 0, 0, 0⟩]⟩

/-- C4, counterexample.  With a haystack exactly the probe's size, the
claim's candidate range `[0, w−pw] × [0, h−ph]` is the non-empty single
position `(0,0)` and the probe has a sampled point, yet `MatchProbe`
returns the `(0,0,0)` sentinel: the code treats `maxX ≤ 0` (not only
`maxX < 0`) as degenerate. -/
theorem matchProbe_sentinel_at_equal_size :
    matchProbe img2x2zero probe2x2one 1 1 false = (0, 0, (0 : ℚ)) ∧
      probe2x2one.points.length ≠ 0 ∧
      probe2x2one.width ≤ img2x2zero.w ∧
      probe2x2one.height ≤ img2x2zero.h := by
  refine ⟨?_, by decide, by decide, by decide⟩
  simp only [matchProbe]
  rw [if_pos (Or.inl (by decide))]

/-- C4, amended.  `MatchProbe` returns the `(0,0,0)` sentinel iff the
input is degenerate in the exclusive sense — haystack not strictly larger
than the probe in both dimensions, or fewer points than `probe_step`
(integer division `len/probe_step = 0`) — or the scan itself best-matches
with total score 0 at the origin (a perfect match at `(0,0)` is
indistinguishable from the sentinel). -/
theorem matchProbe_sentinel_iff (img : RGBAImage) (probe : TemplateProbe)
    (step probeStep : ℕ) (par : Bool) (_hst : 1 ≤ step)
    (hps : 1 ≤ probeStep) :
    matchProbe img probe step probeStep par = (0, 0, (0 : ℚ)) ↔
      (img.w ≤ probe.width ∨ img.h ≤ probe.height ∨
        probe.points.length < probeStep) ∨
      (probe.width < img.w ∧ probe.height < img.h ∧
        probeStep ≤ probe.points.length ∧
        (if par then
          parallelScan img probe step probeStep (img.w - probe.width)
            (img.h - probe.height)
         else
          matchRect img probe step probeStep 0 (img.w - probe.width) 0
            (img.h - probe.height)) = (0, 0, 0)) := by
  by_cases hdim : img.w ≤ probe.width ∨ img.h ≤ probe.height
  · refine iff_of_true ?_ (Or.inl (by tauto))
    simp only [matchProbe]
    rw [if_pos hdim]
  · by_cases hvp : probe.points.length / probeStep = 0
    · have hlt : probe.points.length < probeStep := by
        by_contra hc
        push_neg at hc
        have := (Nat.one_le_div_iff (by omega)).mpr hc
        omega
      refine iff_of_true ?_ (Or.inl (Or.inr (Or.inr hlt)))
      simp only [matchProbe]
      rw [if_neg hdim, if_pos hvp]
    · have hge : probeStep ≤ probe.points.length := by
        by_contra hc
        push_neg at hc
        exact hvp (Nat.div_eq_of_lt hc)
      have hvp1 : 1 ≤ probe.points.length / probeStep :=
        (Nat.one_le_div_iff (by omega)).mpr hge
      simp only [matchProbe]
      rw [if_neg hdim, if_neg hvp]
      constructor
      · intro heq
        have h1 := congrArg Prod.fst heq
        have h2 := congrArg (fun t : ℕ × ℕ × ℚ => t.2.1) heq
        have h3 := congrArg (fun t : ℕ × ℕ × ℚ => t.2.2) heq
        simp only at h1 h2 h3
        have hsad : (if par then
            parallelScan img probe step probeStep (img.w - probe.width)
              (img.h - probe.height)
          else
            matchRect img probe step probeStep 0 (img.w - probe.width) 0
              (img.h - probe.height)).2.2 = 0 := by
          unfold calcAvgDiff at h3
          rw [if_neg hvp] at h3
          have hden : ((probe.points.length / probeStep : ℕ) : ℚ) * 3 ≠ 0 := by
            have : (0 : ℚ) < ((probe.points.length / probeStep : ℕ) : ℚ) := by
              exact_mod_cast hvp1
            positivity
          have := (div_eq_zero_iff.mp h3).resolve_right hden
          exact_mod_cast this
        refine Or.inr ⟨by omega, by omega, hge, ?_⟩
        exact Prod.ext h1 (Prod.ext h2 hsad)
      · rintro (hl | ⟨-, -, -, hr0⟩)
        · omega
        · rw [hr0]
          simp only [calcAvgDiff, if_neg hvp]
          norm_num

/-- A 9×9 all-black haystack. -/
def img9x9zero : RGBAImage :=
  ⟨9, 9, 36, List.replicate 324 0⟩

/-- An empty 1×1 probe. -/
def probeEmpty11 : TemplateProbe :=
  ⟨1, 1, []⟩

/-- Witness for C4's amended theorem: an empty probe is degenerate even
on a large haystack, in either parallel mode. -/
theorem matchProbe_sentinel_iff_witness :
    matchProbe img9x9zero probeEmpty11 2 3 true = (0, 0, (0 : ℚ)) :=
  (matchProbe_sentinel_iff img9x9zero probeEmpty11 2 3 true
    (by omega) (by omega)).mpr (Or.inl (Or.inr (Or.inr (by decide))))

/-- The result position of `matchRect` is the surviving `(0,0)` initial
accumulator or a scanned candidate, hence within the scanned rectangle. -/
lemma matchRect_pos (img : RGBAImage) (probe : TemplateProbe)
    (step ps sX eX sY eY : ℕ) (hst : 1 ≤ step) :
    ((matchRect img probe step ps sX eX sY eY).1 = 0 ∧
      (matchRect img probe step ps sX eX sY eY).2.1 = 0) ∨
    ((matchRect img probe step ps sX eX sY eY).1 < eX ∧
      (matchRect img probe step ps sX eX sY eY).2.1 < eY) := by
  unfold matchRect
  refine bestFold_pres img probe ps _
    (fun acc => (acc.1 = 0 ∧ acc.2.1 = 0) ∨ (acc.1 < eX ∧ acc.2.1 < eY))
    _ _ (Or.inl ⟨rfl, rfl⟩) fun c hcm => ?_
  obtain ⟨x, y⟩ := c
  obtain ⟨-, hx, -, hy⟩ := mem_rectCandidates hst hcm
  exact Or.inr ⟨hx, hy⟩

/-- Plain preservation of a predicate along `List.foldl`. -/
lemma foldl_pres {α β : Type} (f : β → α → β) (P : β → Prop) :
    ∀ (l : List α) (b : β), P b → (∀ b a, P b → P (f b a)) →
      P (l.foldl f b)
  | [], _ => fun hb _ => hb
  | a :: t, b => fun hb hf => foldl_pres f P t (f b a) (hf b a hb) hf

/-- The result position of the 8-band parallel scan: x stays strictly
below `maxX`; y stays strictly below `maxY + 1` (the capped last band
scans `y = maxY` inclusively). -/
lemma parallelScan_pos (img : RGBAImage) (probe : TemplateProbe)
    (step ps maxX maxY : ℕ) (hst : 1 ≤ step) :
    ((parallelScan img probe step ps maxX maxY).1 = 0 ∧
      (parallelScan img probe step ps maxX maxY).2.1 = 0) ∨
    ((parallelScan img probe step ps maxX maxY).1 < maxX ∧
      (parallelScan img probe step ps maxX maxY).2.1 < maxY + 1) := by
  unfold parallelScan
  simp only
  refine foldl_pres _
    (fun acc : ℕ × ℕ × ℕ => (acc.1 = 0 ∧ acc.2.1 = 0) ∨
      (acc.1 < maxX ∧ acc.2.1 < maxY + 1)) _ _
    (Or.inl ⟨rfl, rfl⟩) fun acc i hacc => ?_
  simp only
  split_ifs with h1 h2 h3
  · rcases matchRect_pos img probe step ps 0 maxX
        (i * ((maxY / step + 1 + 8 - 1) / 8) * step) (maxY + 1) hst
      with h0 | hb
    · exact Or.inl h0
    · exact Or.inr hb
  · exact hacc
  · rcases matchRect_pos img probe step ps 0 maxX
        (i * ((maxY / step + 1 + 8 - 1) / 8) * step)
        ((i + 1) * ((maxY / step + 1 + 8 - 1) / 8) * step) hst
      with h0 | hb
    · exact Or.inl h0
    · exact Or.inr ⟨hb.1,
        Nat.lt_succ_of_lt (lt_of_lt_of_le hb.2 (Nat.le_of_not_lt h1))⟩
  · exact hacc

/-- C8.  With `step ≥ 1`, `probe_step ≥ 1`, either parallel mode and any
probe, a non-sentinel `MatchProbe` result lies inside the claim's range
(`0 ≤ x ≤ w−pw`, `0 ≤ y ≤ h−ph`, stated subtraction-free), and every
pixel read the scan performs is bounds-checked by the per-point offset
guard: a contribution exists only when the full 3-byte read window lies
inside the pixel buffer. -/
theorem matchProbe_position_in_range (img : RGBAImage)
    (probe : TemplateProbe) (step probeStep : ℕ) (par : Bool)
    (hst : 1 ≤ step) (_hps : 1 ≤ probeStep)
    (hns : matchProbe img probe step probeStep par ≠ (0, 0, (0 : ℚ))) :
    ((matchProbe img probe step probeStep par).1 + probe.width ≤ img.w ∧
      (matchProbe img probe step probeStep par).2.1 + probe.height ≤
        img.h) ∧
    ∀ (base : ℤ) (p : ProbePoint) (v : ℕ),
      pointContribution img base p = some v →
        0 ≤ base + p.y * (img.stride : ℤ) + p.x * 4 ∧
        base + p.y * (img.stride : ℤ) + p.x * 4 + 2 <
          (img.pix.length : ℤ) := by
  refine ⟨?_, ?_⟩
  · by_cases hdim : img.w ≤ probe.width ∨ img.h ≤ probe.height
    · exfalso
      apply hns
      simp only [matchProbe]
      rw [if_pos hdim]
    · by_cases hvp : probe.points.length / probeStep = 0
      · exfalso
        apply hns
        simp only [matchProbe]
        rw [if_neg hdim, if_pos hvp]
      · push_neg at hdim
        cases par with
        | false =>
          have hM : matchProbe img probe step probeStep false =
              ((matchRect img probe step probeStep 0
                  (img.w - probe.width) 0 (img.h - probe.height)).1,
                (matchRect img probe step probeStep 0
                  (img.w - probe.width) 0 (img.h - probe.height)).2.1,
                calcAvgDiff (matchRect img probe step probeStep 0
                  (img.w - probe.width) 0 (img.h - probe.height)).2.2
                  (probe.points.length / probeStep)) := by
            simp only [matchProbe]
            rw [if_neg (by omega), if_neg hvp, if_neg Bool.false_ne_true]
          rw [hM]
          dsimp only
          rcases matchRect_pos img probe step probeStep 0
              (img.w - probe.width) 0 (img.h - probe.height) hst
            with h0 | hb
          · exact ⟨by omega, by omega⟩
          · exact ⟨by omega, by omega⟩
        | true =>
          have hM : matchProbe img probe step probeStep true =
              ((parallelScan img probe step probeStep
                  (img.w - probe.width) (img.h - probe.height)).1,
                (parallelScan img probe step probeStep
                  (img.w - probe.width) (img.h - probe.height)).2.1,
                calcAvgDiff (parallelScan img probe step probeStep
                  (img.w - probe.width) (img.h - probe.height)).2.2
                  (probe.points.length / probeStep)) := by
            simp only [matchProbe]
            rw [if_neg (by omega), if_neg hvp]
            simp
          rw [hM]
          dsimp only
          rcases parallelScan_pos img probe step probeStep
              (img.w - probe.width) (img.h - probe.height) hst
            with h0 | hb
          · exact ⟨by omega, by omega⟩
          · exact ⟨by omega, by omega⟩
  · intro base p v hv
    simp only [pointContribution] at hv
    by_cases hg : 0 ≤ base + p.y * (img.stride : ℤ) + p.x * 4 ∧
        base + p.y * (img.stride : ℤ) + p.x * 4 + 2 < (img.pix.length : ℤ)
    · exact hg
    · rw [if_neg hg] at hv
      simp at hv

/-- A 3×3 all-black haystack. -/
def img3x3zero : RGBAImage :=
  ⟨3, 3, 12, List.replicate 36 0⟩

/-- Witness for C8 at a concrete parallel scan on a 3×3 haystack. -/
theorem matchProbe_position_in_range_witness :
    ((matchProbe img3x3zero probeRed1 1 1 true).1 + probeRed1.width ≤
        img3x3zero.w ∧
      (matchProbe img3x3zero probeRed1 1 1 true).2.1 + probeRed1.height ≤
        img3x3zero.h) ∧
    ∀ (base : ℤ) (p : ProbePoint) (v : ℕ),
      pointContribution img3x3zero base p = some v →
        0 ≤ base + p.y * (img3x3zero.stride : ℤ) + p.x * 4 ∧
        base + p.y * (img3x3zero.stride : ℤ) + p.x * 4 + 2 <
          (img3x3zero.pix.length : ℤ) := by
  have hpar : parallelScan img3x3zero probeRed1 1 1 2 2 = (0, 0, 3405) := by
    decide
  have hns : matchProbe img3x3zero probeRed1 1 1 true ≠ (0, 0, (0 : ℚ)) := by
    have hM : matchProbe img3x3zero probeRed1 1 1 true =
        (0, 0, calcAvgDiff 3405 1) := by
      simp only [matchProbe]
      rw [if_neg (show ¬ (img3x3zero.w ≤ probeRed1.width ∨
            img3x3zero.h ≤ probeRed1.height) by decide),
        if_neg (show ¬ (probeRed1.points.length / 1 = 0) by decide)]
      simp only [if_true]
      have e1 : img3x3zero.w - probeRed1.width = 2 := by decide
      have e2 : img3x3zero.h - probeRed1.height = 2 := by decide
      have e3 : probeRed1.points.length / 1 = 1 := by decide
      rw [e1, e2, e3, hpar]
    rw [hM]
    intro hcon
    have := congrArg (fun t : ℕ × ℕ × ℚ => t.2.2) hcon
    simp only [calcAvgDiff] at this
    norm_num at this
  exact matchProbe_position_in_range img3x3zero probeRed1 1 1 true
    (by omega) (by omega) hns

/-- C10.  With `parallel = false` and a haystack strictly larger than the
probe, the serial scan's candidate list excludes the upper bounds
`x = w − pw` and `y = h − ph` (the Go loop conditions are strict), and
the returned position is strictly below both. -/
theorem matchProbe_serial_exclusive_bounds (img : RGBAImage)
    (probe : TemplateProbe) (step probeStep : ℕ)
    (hst : 1 ≤ step) (_hps : 1 ≤ probeStep)
    (hw : probe.width < img.w) (hh : probe.height < img.h) :
    ((matchProbe img probe step probeStep false).1 <
        img.w - probe.width ∧
      (matchProbe img probe step probeStep false).2.1 <
        img.h - probe.height) ∧
    ∀ x y, (x, y) ∈ rectCandidates 0 (img.w - probe.width) 0
        (img.h - probe.height) step →
      x < img.w - probe.width ∧ y < img.h - probe.height := by
  constructor
  · by_cases hvp : probe.points.length / probeStep = 0
    · have hM : matchProbe img probe step probeStep false =
          (0, 0, (0 : ℚ)) := by
        simp only [matchProbe]
        rw [if_neg (by omega), if_pos hvp]
      rw [hM]
      dsimp only
      exact ⟨by omega, by omega⟩
    · have hM : matchProbe img probe step probeStep false =
          ((matchRect img probe step probeStep 0
              (img.w - probe.width) 0 (img.h - probe.height)).1,
            (matchRect img probe step probeStep 0
              (img.w - probe.width) 0 (img.h - probe.height)).2.1,
            calcAvgDiff (matchRect img probe step probeStep 0
              (img.w - probe.width) 0 (img.h - probe.height)).2.2
              (probe.points.length / probeStep)) := by
        simp only [matchProbe]
        rw [if_neg (by omega), if_neg hvp, if_neg Bool.false_ne_true]
      rw [hM]
      dsimp only
      rcases matchRect_pos img probe step probeStep 0
          (img.w - probe.width) 0 (img.h - probe.height) hst
        with h0 | hb
      · exact ⟨by omega, by omega⟩
      · exact hb
  · intro x y hm
    obtain ⟨-, hx, -, hy⟩ := mem_rectCandidates hst hm
    exact ⟨hx, hy⟩

/-- Witness for C10 on the concrete 3×3 haystack. -/
theorem matchProbe_serial_exclusive_bounds_witness :
    ((matchProbe img3x3zero probeRed1 1 1 false).1 <
        img3x3zero.w - probeRed1.width ∧
      (matchProbe img3x3zero probeRed1 1 1 false).2.1 <
        img3x3zero.h - probeRed1.height) ∧
    ∀ x y, (x, y) ∈ rectCandidates 0
        (img3x3zero.w - probeRed1.width) 0
        (img3x3zero.h - probeRed1.height) 1 →
      x < img3x3zero.w - probeRed1.width ∧
        y < img3x3zero.h - probeRed1.height :=
  matchProbe_serial_exclusive_bounds img3x3zero probeRed1 1 1
    (by omega) (by omega) (by decide) (by decide)

/- ==========================================================
   Confidence gate (global search)
   ========================================================== -/

/-- One zone's global-search entry (`raceResult` in `Locate`). -/
structure RaceResult where
  zoneID : String
  x : ℤ
  y : ℤ
  weightedDiff : ℚ
  consistency : ℚ
  combinedScore : ℚ
deriving DecidableEq, Repr

/-- Modelled from the spec: `ComputeZScore` (the function's own source
file is not in the repository snapshot; only its caller in `Locate` is).
The spec defines `z = (μ − x) / σ` with μ the mean and σ the standard
deviation of the candidate scores; the gate's condition `z > t`
(`t = 1.5`) is expressed square-root-free as
`μ − x > 0 ∧ (μ − x)² > t² · σ²`; when `σ = 0` the condition is false
(the spec's `z` is then undefined there). -/
def zScoreExceeds (x : ℚ) (scores : List ℚ) (t : ℚ) : Bool :=
  if scores.length = 0 then false
  else
    let n : ℚ := scores.length
    let mean := scores.sum / n
    let varAvg := (scores.map fun s => (s - mean) ^ 2).sum / n
    decide (mean - x > 0 ∧ (mean - x) ^ 2 > t ^ 2 * varAvg)

/-- The triple-validation confidence gate of `Locate`: with two or more
candidates count the absolute (`< 60`), gap (`≥ 8`) and z-score
(`> 1.5`) conditions and accept `rank1` iff at least two hold; with one
candidate accept iff `< 55`; with none return no winner. -/
def confidenceGate (allResults : List RaceResult) : Option RaceResult :=
  match allResults with
  | r1 :: r2 :: _ =>
    let absoluteOK := decide (r1.combinedScore < 60)
    let gapOK := decide (r2.combinedScore - r1.combinedScore ≥ 8)
    let statOK := zScoreExceeds r1.combinedScore
      (allResults.map fun r => r.combinedScore) (3 / 2)
    let conditionsMet : ℕ :=
      (if absoluteOK then 1 else 0) + (if gapOK then 1 else 0) +
        (if statOK then 1 else 0)
    if conditionsMet ≥ 2 then some r1 else none
  | [r] => if r.combinedScore < 55 then some r else none
  | [] => none

/-- C3.  On the sorted candidate list the gate accepts the best candidate
iff at least two of the three conditions hold (absolute `< 60`, gap
`≥ 8`, z-score `> 1.5`); a single candidate is accepted iff its combined
score is `< 55`; an empty candidate list produces no position. -/
theorem confidenceGate_two_of_three :
    (∀ (r1 r2 : RaceResult) (rest : List RaceResult),
      List.Chain'
        (fun a b : RaceResult => a.combinedScore ≤ b.combinedScore)
        (r1 :: r2 :: rest) →
      (confidenceGate (r1 :: r2 :: rest) = some r1 ↔
        ((r1.combinedScore < 60 ∧
            r2.combinedScore - r1.combinedScore ≥ 8) ∨
         (r1.combinedScore < 60 ∧
            zScoreExceeds r1.combinedScore
              ((r1 :: r2 :: rest).map fun r => r.combinedScore)
              (3 / 2) = true) ∨
         (r2.combinedScore - r1.combinedScore ≥ 8 ∧
            zScoreExceeds r1.combinedScore
              ((r1 :: r2 :: rest).map fun r => r.combinedScore)
              (3 / 2) = true)))) ∧
    (∀ r : RaceResult,
      confidenceGate [r] = some r ↔ r.combinedScore < 55) ∧
    confidenceGate ([] : List RaceResult) = none := by
  refine ⟨?_, ?_, rfl⟩
  · intro r1 r2 rest hsorted
    simp only [confidenceGate]
    by_cases hA : r1.combinedScore < 60 <;>
      by_cases hB : r2.combinedScore - r1.combinedScore ≥ 8 <;>
        cases hS : zScoreExceeds r1.combinedScore
            ((r1 :: r2 :: rest).map fun r => r.combinedScore) (3 / 2) <;>
          simp [hA, hB, hS]
  · intro r
    simp only [confidenceGate]
    split_ifs with h
    · simp [h]
    · simp [h]

/-- Spec example candidates with combined scores 10 and 30. -/
def raceA10 : RaceResult := ⟨"A", 0, 0, 10, 0, 10⟩

/-- Second-ranked candidate with combined score 30. -/
def raceB30 : RaceResult := ⟨"B", 0, 0, 30, 0, 30⟩

/-- Witness for C3: scores `(10, 30)` satisfy absolute and gap, so the
gate accepts rank 1. -/
theorem confidenceGate_two_of_three_witness :
    confidenceGate [raceA10, raceB30] = some raceA10 :=
  (confidenceGate_two_of_three.1 raceA10 raceB30 []
    (by constructor
        · norm_num [raceA10, raceB30]
        · constructor)).mpr
    (Or.inl ⟨by norm_num [raceA10], by norm_num [raceA10, raceB30]⟩)

/- ==========================================================
   Locator state machine: MapLocator.Locate
   ========================================================== -/

/-- `MapPosition` (the `SliceIndex` field is never written by the
locator and is omitted). -/
structure MapPosition where
  zoneID : String
  x : ℚ
  y : ℚ
  avgDiff : ℚ
deriving DecidableEq, Repr

/-- The locator's mutable motion/tracking state across `Locate` calls.
`lostTracking` is a Go `int` that is only ever set to 0, set to
`MaxLost+1` at construction, or incremented, hence ℕ. -/
structure LocState where
  lastKnownPos : Option MapPosition
  lostTracking : ℕ
  currentZoneID : String
  velocityX : ℚ
  velocityY : ℚ
  lastTime : ℚ
deriving DecidableEq, Repr

/-- `MaxLostTrackingCount`. -/
def maxLostTrackingCount : ℕ := 3

/-- `NewMapLocator`'s initial state: lost counter at `MaxLost + 1`
("初始判定为丢失"), no known position, no zone, zero velocity. -/
def initState : LocState :=
  { lastKnownPos := none
    lostTracking := maxLostTrackingCount + 1
    currentZoneID := ""
    velocityX := 0
    velocityY := 0
    lastTime := 0 }

/-- Per-frame outcome of the tracking branch's image operations, which
the embedding abstracts over (zone-map lookup, search-rectangle
intersection, coarse `MatchProbe` on the search buffer, and the 4-px
fine refinement).  `Locate`'s control flow and state updates are a
function of these values, and the locate-level claims quantify over all
of them. -/
structure TrackOracle where
  zoneExists : Bool
  rectNonempty : Bool
  coarse : ℚ
  coarseX : ℚ
  coarseY : ℚ
  fineApplicable : Bool
  fineDiff : ℚ
  fineX : ℚ
  fineY : ℚ
deriving DecidableEq, Repr

/-- One zone's raw global-search numbers, as produced by
`MatchProbeWeighted` and `ComputeLocalConsistencyFast` (whose internals
the locate-level claims do not depend on). -/
structure RaceInput where
  zoneID : String
  x : ℤ
  y : ℤ
  weightedDiff : ℚ
  consistency : ℚ
deriving DecidableEq, Repr

/-- All per-frame inputs of one `Locate` call. -/
structure FrameOracle where
  now : ℚ
  track : TrackOracle
  race : List RaceInput
  gFineDiff : ℚ
  gFineX : ℚ
  gFineY : ℚ
deriving DecidableEq, Repr

/-- Insertion into a list sorted ascending by combined score. -/
def insertByScore (r : RaceResult) : List RaceResult → List RaceResult
  | [] => [r]
  | a :: t =>
    if r.combinedScore < a.combinedScore then r :: a :: t
    else a :: insertByScore r t

/-- Ascending sort by combined score.  (Go's `sort.Slice` is unstable;
which of two equal-score candidates ranks first is unspecified there,
and no claim below depends on tie order.) -/
def sortByScore : List RaceResult → List RaceResult
  | [] => []
  | a :: t => insertByScore a (sortByScore t)

/-- `updateMotionModel`, transcribed: EMA with α = 0.5 when a known
position exists, `dt ∈ (0.016, 1.0)` and the previous frame was a
successful track (`lostTracking = 0`); zero the velocity when
`lostTracking > 0`; otherwise leave it.  (0.016 is modelled as the exact
rational 2/125; no claim depends on the float64 representation gap.) -/
def updateMotionModel (s : LocState) (newPos : MapPosition) (now : ℚ) :
    LocState :=
  let dt := now - s.lastTime
  match s.lastKnownPos with
  | some p =>
    if dt > 2 / 125 ∧ dt < 1 ∧ s.lostTracking = 0 then
      let alpha : ℚ := 1 / 2
      let rawVx := (newPos.x - p.x) / dt
      let rawVy := (newPos.y - p.y) / dt
      { s with velocityX := s.velocityX * (1 - alpha) + rawVx * alpha
               velocityY := s.velocityY * (1 - alpha) + rawVy * alpha }
    else if s.lostTracking > 0 then
      { s with velocityX := 0, velocityY := 0 }
    else s
  | none =>
    if s.lostTracking > 0 then
      { s with velocityX := 0, velocityY := 0 }
    else s

/-- The tracking-branch entry guards of `Locate`: a current zone is set,
a last known position exists, and the lost counter is at most
`MaxLost`. -/
def trackingGuardsP (s : LocState) : Prop :=
  s.currentZoneID ≠ "" ∧ s.lastKnownPos.isSome = true ∧
    s.lostTracking ≤ maxLostTrackingCount

instance : DecidablePred trackingGuardsP := fun s => by
  unfold trackingGuardsP
  infer_instance

/-- The prediction-step clamp: inside the tracking branch (zone found),
`dt > 0.5` zeroes the velocity before prediction.  This field write
persists even when the branch later misses. -/
def predClamp (s : LocState) (o : FrameOracle) : LocState :=
  if trackingGuardsP s ∧ o.track.zoneExists = true ∧
      o.now - s.lastTime > 1 / 2 then
    { s with velocityX := 0, velocityY := 0 }
  else s

/-- Whether the tracking branch runs to acceptance: guards hold, the
zone image exists, the search rectangle is non-empty, and the coarse
avg-diff is strictly below the tracking threshold `70.0`. -/
def trackingAccepted (s : LocState) (o : FrameOracle) : Prop :=
  trackingGuardsP s ∧ o.track.zoneExists = true ∧
    o.track.rectNonempty = true ∧ o.track.coarse < 70

instance (s : LocState) (o : FrameOracle) :
    Decidable (trackingAccepted s o) := by
  unfold trackingAccepted
  infer_instance

/-- The position the tracking branch emits: the fine result when the
fine ROI was wide enough and strictly better, else the coarse result;
the zone is the current zone. -/
def trackSuccessPos (s : LocState) (o : FrameOracle) : MapPosition :=
  if o.track.fineApplicable = true ∧ o.track.fineDiff < o.track.coarse then
    ⟨s.currentZoneID, o.track.fineX, o.track.fineY, o.track.fineDiff⟩
  else
    ⟨s.currentZoneID, o.track.coarseX, o.track.coarseY, o.track.coarse⟩

/-- The tail of `Locate`'s global-search phase, from the gate's verdict
on: fine-refine the winner (no further threshold), reset velocity on a
zone switch else run the motion model; on a miss advance the lost
counter and clear `lastKnownPos` once it exceeds `MaxLost`. -/
def globalFinish (s : LocState) (o : FrameOracle)
    (winner : Option RaceResult) :
    LocState × Option MapPosition × Option String :=
  match winner with
  | some w =>
    let best : MapPosition :=
      ⟨w.zoneID, o.gFineX, o.gFineY, o.gFineDiff⟩
    let s1 :=
      if s.currentZoneID ≠ best.zoneID then
        { s with velocityX := 0, velocityY := 0 }
      else updateMotionModel s best o.now
    ({ s1 with currentZoneID := best.zoneID
               lastKnownPos := some best
               lastTime := o.now
               lostTracking := 0 }, some best, none)
  | none =>
    let s1 := { s with lostTracking := s.lostTracking + 1 }
    let s2 :=
      if s1.lostTracking > maxLostTrackingCount then
        { s1 with lastKnownPos := none }
      else s1
    (s2, none, none)

/-- The sorted, filtered, combined candidate list fed to the gate. -/
def raceCandidates (o : FrameOracle) : List RaceResult :=
  sortByScore
    ((o.race.filter fun r => 0 < r.weightedDiff).map fun r =>
      ⟨r.zoneID, r.x, r.y, r.weightedDiff, r.consistency,
        r.weightedDiff + r.consistency * (1 / 5)⟩)

/-- The global-search phase of `Locate`: drop zones whose weighted diff
is the 0 sentinel, add the consistency penalty with α = 0.2 (exactly
1/5 here), sort ascending, run the confidence gate, finish. -/
def globalPhase (s : LocState) (o : FrameOracle) :
    LocState × Option MapPosition × Option String :=
  globalFinish s o (confidenceGate (raceCandidates o))

/-- `MapLocator.Locate` as a function of the locator state and the
per-frame oracle.  The third component mirrors the Go `error` return;
every return site of the source returns `nil`. -/
def locate (s : LocState) (o : FrameOracle) :
    LocState × Option MapPosition × Option String :=
  let s1 := predClamp s o
  if trackingAccepted s o then
    let pos := trackSuccessPos s o
    let s2 := updateMotionModel s1 pos o.now
    ({ s2 with lastKnownPos := some pos
               lastTime := o.now
               lostTracking := 0 }, some pos, none)
  else globalPhase s1 o

/-- Fold `Locate` over a sequence of frames, keeping the state. -/
def runLocs (s : LocState) : List FrameOracle → LocState
  | [] => s
  | o :: os => runLocs (locate s o).1 os

/-- The frames `os`, run from `s`, all produce no position. -/
def isMissRun (s : LocState) : List FrameOracle → Prop
  | [] => True
  | o :: os => (locate s o).2.1 = none ∧ isMissRun (locate s o).1 os

/- ==========================================================
   Locate lemmas
   ========================================================== -/

lemma predClamp_state (s : LocState) (o : FrameOracle) :
    (predClamp s o).lostTracking = s.lostTracking ∧
    (predClamp s o).lastKnownPos = s.lastKnownPos ∧
    (predClamp s o).currentZoneID = s.currentZoneID ∧
    (predClamp s o).lastTime = s.lastTime ∧
    ((predClamp s o).velocityX = s.velocityX ∧
      (predClamp s o).velocityY = s.velocityY ∨
      (predClamp s o).velocityX = 0 ∧ (predClamp s o).velocityY = 0) := by
  unfold predClamp
  split_ifs with h
  · exact ⟨rfl, rfl, rfl, rfl, Or.inr ⟨rfl, rfl⟩⟩
  · exact ⟨rfl, rfl, rfl, rfl, Or.inl ⟨rfl, rfl⟩⟩

lemma updateMotionModel_fields (s : LocState) (p : MapPosition)
    (now : ℚ) :
    (updateMotionModel s p now).lostTracking = s.lostTracking ∧
    (updateMotionModel s p now).lastKnownPos = s.lastKnownPos ∧
    (updateMotionModel s p now).currentZoneID = s.currentZoneID ∧
    (updateMotionModel s p now).lastTime = s.lastTime := by
  obtain ⟨lkp, lt, cz, vx, vy, ltm⟩ := s
  unfold updateMotionModel
  cases lkp <;> dsimp only <;> split_ifs <;> exact ⟨rfl, rfl, rfl, rfl⟩

lemma updateMotionModel_vel (s : LocState) (p : MapPosition) (now : ℚ) :
    ((updateMotionModel s p now).velocityX = s.velocityX ∧
      (updateMotionModel s p now).velocityY = s.velocityY) ∨
    ((updateMotionModel s p now).velocityX = 0 ∧
      (updateMotionModel s p now).velocityY = 0) ∨
    (s.lostTracking = 0 ∧ s.lastKnownPos.isSome = true ∧
      2 / 125 < now - s.lastTime ∧ now - s.lastTime < 1) := by
  obtain ⟨lkp, lt, cz, vx, vy, ltm⟩ := s
  unfold updateMotionModel
  cases lkp with
  | none =>
    dsimp only
    split_ifs with h
    · exact Or.inr (Or.inl ⟨rfl, rfl⟩)
    · exact Or.inl ⟨rfl, rfl⟩
  | some q =>
    dsimp only
    split_ifs with h1 h2
    · exact Or.inr (Or.inr ⟨h1.2.2, rfl, h1.1, h1.2.1⟩)
    · exact Or.inr (Or.inl ⟨rfl, rfl⟩)
    · exact Or.inl ⟨rfl, rfl⟩

lemma globalFinish_err (s : LocState) (o : FrameOracle)
    (w : Option RaceResult) : (globalFinish s o w).2.2 = none := by
  cases w <;> rfl

lemma globalFinish_miss (s : LocState) (o : FrameOracle)
    (w : Option RaceResult) (h : (globalFinish s o w).2.1 = none) :
    (globalFinish s o w).1.lostTracking = s.lostTracking + 1 ∧
    (globalFinish s o w).1.lastKnownPos =
      (if s.lostTracking + 1 > maxLostTrackingCount then none
       else s.lastKnownPos) ∧
    (globalFinish s o w).1.currentZoneID = s.currentZoneID ∧
    (globalFinish s o w).1.lastTime = s.lastTime ∧
    (globalFinish s o w).1.velocityX = s.velocityX ∧
    (globalFinish s o w).1.velocityY = s.velocityY := by
  cases w with
  | some r => exact absurd h (by simp [globalFinish])
  | none =>
    unfold globalFinish
    dsimp only
    split_ifs with hc <;> exact ⟨rfl, rfl, rfl, rfl, rfl, rfl⟩

lemma globalFinish_success (s : LocState) (o : FrameOracle)
    (w : Option RaceResult) (pos : MapPosition)
    (h : (globalFinish s o w).2.1 = some pos) :
    (globalFinish s o w).1.lostTracking = 0 ∧
    (globalFinish s o w).1.lastKnownPos = some pos ∧
    (globalFinish s o w).1.lastTime = o.now := by
  cases w with
  | none => exact absurd h (by simp [globalFinish])
  | some r =>
    have hpos : pos = ⟨r.zoneID, o.gFineX, o.gFineY, o.gFineDiff⟩ := by
      have := h.symm
      simpa [globalFinish] using this
    subst hpos
    exact ⟨rfl, rfl, rfl⟩

lemma locate_miss_state (s : LocState) (o : FrameOracle)
    (h : (locate s o).2.1 = none) :
    (locate s o).1.lostTracking = s.lostTracking + 1 ∧
    (locate s o).1.lastKnownPos =
      (if s.lostTracking + 1 > maxLostTrackingCount then none
       else s.lastKnownPos) ∧
    (locate s o).1.currentZoneID = s.currentZoneID ∧
    (locate s o).1.lastTime = s.lastTime ∧
    ((locate s o).1.velocityX = s.velocityX ∧
      (locate s o).1.velocityY = s.velocityY ∨
     (locate s o).1.velocityX = 0 ∧ (locate s o).1.velocityY = 0) := by
  by_cases hta : trackingAccepted s o
  · exact absurd h (by simp [locate, hta])
  · obtain ⟨hpl, hpk, hpz, hpt, hpv⟩ := predClamp_state s o
    have hloc : locate s o = globalPhase (predClamp s o) o := by
      simp [locate, hta]
    rw [hloc] at h ⊢
    unfold globalPhase at h ⊢
    obtain ⟨g1, g2, g3, g4, g5, g6⟩ :=
      globalFinish_miss (predClamp s o) o
        (confidenceGate (raceCandidates o)) h
    refine ⟨by rw [g1, hpl], ?_, by rw [g3, hpz], by rw [g4, hpt], ?_⟩
    · rw [g2, hpl, hpk]
    · rcases hpv with ⟨e1, e2⟩ | ⟨e1, e2⟩
      · exact Or.inl ⟨by rw [g5, e1], by rw [g6, e2]⟩
      · exact Or.inr ⟨by rw [g5, e1], by rw [g6, e2]⟩

lemma locate_success_state (s : LocState) (o : FrameOracle)
    (pos : MapPosition) (h : (locate s o).2.1 = some pos) :
    (locate s o).1.lostTracking = 0 ∧
    (locate s o).1.lastKnownPos = some pos := by
  by_cases hta : trackingAccepted s o
  · have hpos : pos = trackSuccessPos s o := by
      have := h.symm
      simpa [locate, hta] using this
    subst hpos
    simp [locate, hta]
  · have hloc : locate s o = globalPhase (predClamp s o) o := by
      simp [locate, hta]
    rw [hloc] at h ⊢
    unfold globalPhase at h ⊢
    obtain ⟨g1, g2, -⟩ :=
      globalFinish_success (predClamp s o) o
        (confidenceGate (raceCandidates o)) pos h
    exact ⟨g1, g2⟩

/-- C9.  `Locate` never returns a non-nil error: the error slot of the
result is `none` for every state and every frame, and failures surface
only as a `none` position. -/
theorem locate_error_always_none (s : LocState) (o : FrameOracle) :
    (locate s o).2.2 = none := by
  unfold locate
  by_cases hta : trackingAccepted s o
  · rw [if_pos hta]
  · rw [if_neg hta]
    exact globalFinish_err (predClamp s o) o
      (confidenceGate (raceCandidates o))

/- ==========================================================
   C1: the tracking acceptance threshold
   ========================================================== -/

/-- A last known position in zone "A". -/
def posA : MapPosition := ⟨"A", 10, 10, 5⟩

/-- A tracked state: zone "A", known position, lost counter 0. -/
def stateTracked : LocState :=
  { lastKnownPos := some posA
    lostTracking := 0
    currentZoneID := "A"
    velocityX := 0
    velocityY := 0
    lastTime := 0 }

/-- A frame whose tracking attempt sees the zone and a non-empty search
rectangle with coarse avg-diff 60, and whose global search would find
nothing. -/
def frameCoarse60 : FrameOracle :=
  { now := 1
    track := ⟨true, true, 60, 12, 10, false, 0, 0, 0⟩
    race := []
    gFineDiff := 0
    gFineX := 0
    gFineY := 0 }

/-- C1, counterexample.  At coarse avg-diff 60 the tracking branch is
accepted (the source threshold is the constant `trackingMaxDiff = 70.0`)
and `Locate` returns the tracking-branch position, although 60 is not
strictly below the claimed threshold 50.0; the frame's global search
would have produced no position. -/
theorem tracking_accepts_coarse_60 :
    (locate stateTracked frameCoarse60).2.1 =
      some ⟨"A", 12, 10, 60⟩ ∧
    (globalPhase (predClamp stateTracked frameCoarse60)
      frameCoarse60).2.1 = none ∧
    ¬ ((60 : ℚ) < 50) := by
  have hta : trackingAccepted stateTracked frameCoarse60 := by
    refine ⟨⟨by decide, by decide, by decide⟩, rfl, rfl,
      by norm_num [frameCoarse60]⟩
  refine ⟨?_, ?_, by norm_num⟩
  · have : trackSuccessPos stateTracked frameCoarse60 =
        ⟨"A", 12, 10, 60⟩ := by
      unfold trackSuccessPos
      rw [if_neg]
      · rfl
      · rintro ⟨hf, -⟩
        exact absurd hf (by decide)
    simp [locate, hta, this]
  · have hgate : confidenceGate (raceCandidates frameCoarse60) = none :=
      rfl
    unfold globalPhase
    rw [hgate]
    rfl

/-- C1, amended.  The tracking branch, once its guards hold (zone set,
position known, lost counter ≤ MaxLost, zone found, non-empty search
rectangle), accepts the coarse result iff `coarseAvgDiff < 70.0`: below
70 `Locate` returns the tracking position and resets the lost counter,
at 70 or above it falls through to the global-search phase. -/
theorem tracking_threshold_70 (s : LocState) (o : FrameOracle)
    (hg : trackingGuardsP s) (hz : o.track.zoneExists = true)
    (hr : o.track.rectNonempty = true) :
    (o.track.coarse < 70 →
      (locate s o).2.1 = some (trackSuccessPos s o) ∧
      (locate s o).1.lostTracking = 0) ∧
    (70 ≤ o.track.coarse →
      locate s o = globalPhase (predClamp s o) o) := by
  constructor
  · intro hlt
    have hta : trackingAccepted s o := ⟨hg, hz, hr, hlt⟩
    simp [locate, hta]
  · intro hge
    have hta : ¬ trackingAccepted s o := by
      rintro ⟨-, -, -, hc⟩
      exact absurd hc (not_lt.mpr hge)
    simp [locate, hta]

/-- Witness for C1's amended theorem at the concrete tracked state and
the coarse-60 frame: 60 < 70 is accepted. -/
theorem tracking_threshold_70_witness :
    (locate stateTracked frameCoarse60).2.1 =
      some (trackSuccessPos stateTracked frameCoarse60) ∧
    (locate stateTracked frameCoarse60).1.lostTracking = 0 :=
  (tracking_threshold_70 stateTracked frameCoarse60
    ⟨by decide, by decide, by decide⟩ rfl rfl).1
    (by norm_num [frameCoarse60])

/- ==========================================================
   C6: the lost-tracking counter
   ========================================================== -/

/-- A frame that reaches nothing: no tracking zone, no global
candidates. -/
def frameNothing : FrameOracle :=
  { now := 1
    track := ⟨false, false, 0, 0, 0, false, 0, 0, 0⟩
    race := []
    gFineDiff := 0
    gFineX := 0
    gFineY := 0 }

lemma trackingNotAccepted_noZone (s : LocState) (o : FrameOracle)
    (hz : o.track.zoneExists = false) : ¬ trackingAccepted s o := by
  rintro ⟨-, hc, -⟩
  rw [hz] at hc
  exact Bool.false_ne_true hc

lemma predClamp_noZone (s : LocState) (o : FrameOracle)
    (hz : o.track.zoneExists = false) : predClamp s o = s := by
  unfold predClamp
  rw [if_neg]
  rintro ⟨-, hc, -⟩
  rw [hz] at hc
  exact Bool.false_ne_true hc

lemma locate_noZone (s : LocState) (o : FrameOracle)
    (hz : o.track.zoneExists = false) :
    locate s o = globalPhase s o := by
  unfold locate
  rw [if_neg (trackingNotAccepted_noZone s o hz),
    predClamp_noZone s o hz]

/-- C6, counterexample.  One `Locate` miss from the freshly constructed
locator state pushes `lost_tracking_count` to `MaxLost + 2 = 5`: the
counter increments without an upper clamp, so the claimed interval
`[0, MaxLost+1]` does not hold over all reachable states. -/
theorem lostTracking_exceeds_claimed_bound :
    (runLocs initState [frameNothing]).lostTracking = 5 ∧
    ¬ ((runLocs initState [frameNothing]).lostTracking ≤
        maxLostTrackingCount + 1) := by
  have hloc : locate initState frameNothing =
      globalPhase initState frameNothing :=
    locate_noZone _ _ rfl
  have hgate : confidenceGate (raceCandidates frameNothing) = none := rfl
  have hrun : runLocs initState [frameNothing] =
      (locate initState frameNothing).1 := rfl
  have h5 : (locate initState frameNothing).1.lostTracking = 5 := by
    rw [hloc]
    unfold globalPhase
    rw [hgate]
    rfl
  rw [hrun, h5]
  exact ⟨rfl, by decide⟩

lemma runLocs_pres (P : LocState → Prop)
    (hstep : ∀ s o, P s → P (locate s o).1) :
    ∀ (os : List FrameOracle) (s : LocState), P s → P (runLocs s os)
  | [], _ => fun h => h
  | o :: os, s => fun h => runLocs_pres P hstep os _ (hstep s o h)

lemma lost_inv_step (s : LocState) (o : FrameOracle)
    (_h : maxLostTrackingCount < s.lostTracking → s.lastKnownPos = none) :
    maxLostTrackingCount < (locate s o).1.lostTracking →
      (locate s o).1.lastKnownPos = none := by
  intro hgt
  cases ho : (locate s o).2.1 with
  | some pos =>
    obtain ⟨h0, -⟩ := locate_success_state s o pos ho
    rw [h0] at hgt
    exact absurd hgt (by decide)
  | none =>
    obtain ⟨h1, h2, -⟩ := locate_miss_state s o ho
    rw [h2]
    split_ifs with hc
    · rfl
    · rw [h1] at hgt
      exact absurd hgt hc

lemma missRun_keep :
    ∀ (os : List FrameOracle) (s : LocState), isMissRun s os →
      s.lostTracking + os.length ≤ maxLostTrackingCount →
      (runLocs s os).lastKnownPos = s.lastKnownPos ∧
      (runLocs s os).lostTracking = s.lostTracking + os.length
  | [], s => fun _ _ => ⟨rfl, by simp [runLocs]⟩
  | o :: os, s => fun hm hb => by
    obtain ⟨h0, hrest⟩ := hm
    obtain ⟨h1, h2, -⟩ := locate_miss_state s o h0
    simp only [List.length_cons] at hb
    have hk : (locate s o).1.lastKnownPos = s.lastKnownPos := by
      rw [h2, if_neg]
      omega
    obtain ⟨ih1, ih2⟩ := missRun_keep os (locate s o).1 hrest
      (by rw [h1]; omega)
    have hr : runLocs s (o :: os) = runLocs (locate s o).1 os := rfl
    refine ⟨by rw [hr, ih1, hk], ?_⟩
    rw [hr, ih2, h1]
    simp only [List.length_cons]
    omega

lemma missRun_clear :
    ∀ (os : List FrameOracle) (s : LocState), isMissRun s os →
      0 < os.length →
      s.lostTracking + os.length = maxLostTrackingCount + 1 →
      (runLocs s os).lastKnownPos = none
  | [], _ => fun _ h _ => absurd h (by simp)
  | o :: os, s => fun hm _ hsum => by
    obtain ⟨h0, hrest⟩ := hm
    obtain ⟨h1, h2, -⟩ := locate_miss_state s o h0
    simp only [List.length_cons] at hsum
    cases os with
    | nil =>
      show (locate s o).1.lastKnownPos = none
      rw [h2, if_pos]
      simp only [List.length_nil] at hsum
      omega
    | cons o2 os2 =>
      show (runLocs (locate s o).1 (o2 :: os2)).lastKnownPos = none
      refine missRun_clear (o2 :: os2) (locate s o).1 hrest (by simp) ?_
      rw [h1]
      simp only [List.length_cons] at hsum ⊢
      omega

/-- C6, amended.  The lost counter is a natural number with no upper
clamp (consecutive misses push it past `MaxLost + 1`); what does hold in
every reachable state is that a counter above `MaxLost` forces
`last_known_pos` to be cleared.  The tracked-state part holds as
claimed: after a successful frame, `k ≤ MaxLost` consecutive misses
preserve `last_known_pos` and the `(MaxLost+1)`-th miss clears it. -/
theorem lostTracking_invariant_amended :
    (∀ os : List FrameOracle,
      maxLostTrackingCount < (runLocs initState os).lostTracking →
        (runLocs initState os).lastKnownPos = none) ∧
    (∀ (s : LocState) (o : FrameOracle) (pos : MapPosition),
      (locate s o).2.1 = some pos →
      ∀ os : List FrameOracle, isMissRun (locate s o).1 os →
        (os.length ≤ maxLostTrackingCount →
          (runLocs (locate s o).1 os).lastKnownPos = some pos) ∧
        (os.length = maxLostTrackingCount + 1 →
          (runLocs (locate s o).1 os).lastKnownPos = none)) := by
  constructor
  · intro os
    exact runLocs_pres _ lost_inv_step os initState (fun _ => rfl)
  · intro s o pos hsucc os hmiss
    obtain ⟨h0, hk⟩ := locate_success_state s o pos hsucc
    constructor
    · intro hlen
      obtain ⟨ih1, -⟩ := missRun_keep os (locate s o).1 hmiss
        (by rw [h0]; omega)
      rw [ih1, hk]
    · intro hlen
      exact missRun_clear os (locate s o).1 hmiss (by omega)
        (by rw [h0, hlen]; omega)

/-- A frame winning the global search in zone "A" (no tracking). -/
def frameWin : FrameOracle :=
  { now := 1
    track := ⟨false, false, 0, 0, 0, false, 0, 0, 0⟩
    race := [⟨"A", 0, 0, 30, 0⟩]
    gFineDiff := 2
    gFineX := 10
    gFineY := 10 }

lemma frameWin_gate :
    confidenceGate (raceCandidates frameWin) =
      some ⟨"A", 0, 0, 30, 0, 30 + 0 * (1 / 5)⟩ := by
  show confidenceGate [⟨"A", 0, 0, 30, 0, 30 + 0 * (1 / 5)⟩] = _
  simp only [confidenceGate]
  rw [if_pos (show (30 : ℚ) + 0 * (1 / 5) < 55 by norm_num)]

/-- The state after the `frameWin` global hit from the initial state. -/
def stateG1 : LocState :=
  ⟨some ⟨"A", 10, 10, 2⟩, 0, "A", 0, 0, 1⟩

lemma locate_frameWin :
    locate initState frameWin =
      (stateG1, some ⟨"A", 10, 10, 2⟩, none) := by
  rw [locate_noZone _ _ rfl]
  unfold globalPhase
  rw [frameWin_gate]
  unfold globalFinish
  dsimp only
  rw [if_pos (show initState.currentZoneID ≠ "A" by decide)]
  rfl

lemma locate_miss_frameNothing (s : LocState) :
    (locate s frameNothing).2.1 = none := by
  rw [locate_noZone _ _ rfl]
  rfl

/-- Witness for C6's amended theorem: a concrete global hit followed by
four concrete misses ends with `last_known_pos` cleared. -/
theorem lostTracking_invariant_amended_witness :
    (runLocs (locate initState frameWin).1
      [frameNothing, frameNothing, frameNothing, frameNothing]
      ).lastKnownPos = none := by
  have hsucc : (locate initState frameWin).2.1 =
      some ⟨"A", 10, 10, 2⟩ := by rw [locate_frameWin]
  have hmr : isMissRun (locate initState frameWin).1
      [frameNothing, frameNothing, frameNothing, frameNothing] :=
    ⟨locate_miss_frameNothing _, locate_miss_frameNothing _,
      locate_miss_frameNothing _, locate_miss_frameNothing _, trivial⟩
  exact (lostTracking_invariant_amended.2 initState frameWin
    ⟨"A", 10, 10, 2⟩ hsucc _ hmr).2 (by decide)

/- ==========================================================
   C7: velocity on loss and the EMA conditions
   ========================================================== -/

/-- A second global hit in zone "A" half a second later, 10 px to the
right: the motion model's EMA produces a non-zero velocity. -/
def frameWin2 : FrameOracle :=
  { now := 3 / 2
    track := ⟨false, false, 0, 0, 0, false, 0, 0, 0⟩
    race := [⟨"A", 0, 0, 30, 0⟩]
    gFineDiff := 2
    gFineX := 20
    gFineY := 10 }

/-- The state after `frameWin` then `frameWin2`: velocity x is 10. -/
def stateG2 : LocState :=
  ⟨some ⟨"A", 20, 10, 2⟩, 0, "A", 10, 0, 3 / 2⟩

lemma frameWin2_gate :
    confidenceGate (raceCandidates frameWin2) =
      some ⟨"A", 0, 0, 30, 0, 30 + 0 * (1 / 5)⟩ := by
  show confidenceGate [⟨"A", 0, 0, 30, 0, 30 + 0 * (1 / 5)⟩] = _
  simp only [confidenceGate]
  rw [if_pos (show (30 : ℚ) + 0 * (1 / 5) < 55 by norm_num)]

lemma locate_frameWin2 :
    locate stateG1 frameWin2 =
      (stateG2, some ⟨"A", 20, 10, 2⟩, none) := by
  rw [locate_noZone _ _ rfl]
  unfold globalPhase
  rw [frameWin2_gate]
  unfold globalFinish
  dsimp only [stateG1, frameWin2]
  rw [if_neg (show ¬ (("A" : String) ≠ "A") by decide)]
  unfold updateMotionModel
  dsimp only
  rw [if_pos (show (3 : ℚ) / 2 - 1 > 2 / 125 ∧ (3 : ℚ) / 2 - 1 < 1 ∧
    (0 : ℕ) = 0 by norm_num)]
  dsimp only
  have hvx : (0 : ℚ) * (1 - 1 / 2) +
      ((20 : ℚ) - 10) / (3 / 2 - 1) * (1 / 2) = 10 := by norm_num
  have hvy : (0 : ℚ) * (1 - 1 / 2) +
      ((10 : ℚ) - 10) / (3 / 2 - 1) * (1 / 2) = 0 := by norm_num
  rw [hvx, hvy]
  rfl

/-- C7, counterexample.  After the reachable two-hit run producing
velocity x = 10, a `Locate` call that returns no position leaves the
velocity untouched: the state has `lost_tracking_count = 1 > 0` and
velocity `(10, 0) ≠ (0, 0)`; no reset happens on the loss itself. -/
theorem velocity_nonzero_after_loss :
    (locate (runLocs initState [frameWin, frameWin2])
      frameNothing).2.1 = none ∧
    0 < (locate (runLocs initState [frameWin, frameWin2])
      frameNothing).1.lostTracking ∧
    (locate (runLocs initState [frameWin, frameWin2])
      frameNothing).1.velocityX = 10 := by
  have hrun : runLocs initState [frameWin, frameWin2] = stateG2 := by
    show (locate (locate initState frameWin).1 frameWin2).1 = _
    rw [locate_frameWin]
    show (locate stateG1 frameWin2).1 = _
    rw [locate_frameWin2]
  have hend : locate stateG2 frameNothing =
      (⟨some ⟨"A", 20, 10, 2⟩, 1, "A", 10, 0, 3 / 2⟩, none, none) := by
    rw [locate_noZone _ _ rfl]
    unfold globalPhase
    rw [show confidenceGate (raceCandidates frameNothing) = none from rfl]
    unfold globalFinish
    dsimp only
    rw [if_neg (show ¬ (stateG2.lostTracking + 1 >
      maxLostTrackingCount) by decide)]
    rfl
  rw [hrun, hend]
  exact ⟨rfl, by decide, rfl⟩

lemma globalFinish_success_vel (s : LocState) (o : FrameOracle)
    (w : Option RaceResult) (pos : MapPosition)
    (h : (globalFinish s o w).2.1 = some pos) :
    ((globalFinish s o w).1.velocityX = 0 ∧
      (globalFinish s o w).1.velocityY = 0) ∨
    (∃ best, (globalFinish s o w).1.velocityX =
        (updateMotionModel s best o.now).velocityX ∧
      (globalFinish s o w).1.velocityY =
        (updateMotionModel s best o.now).velocityY) := by
  cases w with
  | none => exact absurd h (by simp [globalFinish])
  | some r =>
    unfold globalFinish
    dsimp only
    split_ifs with hc
    · exact Or.inl ⟨rfl, rfl⟩
    · exact Or.inr
        ⟨⟨r.zoneID, o.gFineX, o.gFineY, o.gFineDiff⟩, rfl, rfl⟩

/-- C7, amended.  A `Locate` call that returns no position leaves the
velocity either unchanged or zeroed-by-the-prediction-clamp — it is not
reset to `(0,0)` on every loss.  After a success, the velocity changes
to something other than zero or its previous value only under the EMA
conditions: the previous frame was a successful track
(`lost_tracking_count = 0`), a known position existed, and
`dt ∈ (0.016, 1.0)` seconds. -/
theorem velocity_loss_and_ema_amended :
    (∀ (s : LocState) (o : FrameOracle), (locate s o).2.1 = none →
      ((locate s o).1.velocityX = s.velocityX ∧
        (locate s o).1.velocityY = s.velocityY) ∨
      ((locate s o).1.velocityX = 0 ∧ (locate s o).1.velocityY = 0)) ∧
    (∀ (s : LocState) (o : FrameOracle) (pos : MapPosition),
      (locate s o).2.1 = some pos →
      ¬ (((locate s o).1.velocityX = s.velocityX ∧
            (locate s o).1.velocityY = s.velocityY) ∨
          ((locate s o).1.velocityX = 0 ∧
            (locate s o).1.velocityY = 0)) →
      s.lostTracking = 0 ∧ s.lastKnownPos.isSome = true ∧
        2 / 125 < o.now - s.lastTime ∧ o.now - s.lastTime < 1) := by
  constructor
  · intro s o h
    exact (locate_miss_state s o h).2.2.2.2
  · intro s o pos hsucc hne
    obtain ⟨hpl, hpk, hpz, hpt, hpv⟩ := predClamp_state s o
    by_cases hta : trackingAccepted s o
    · have hvx : (locate s o).1.velocityX =
          (updateMotionModel (predClamp s o) (trackSuccessPos s o)
            o.now).velocityX := by
        simp [locate, hta]
      have hvy : (locate s o).1.velocityY =
          (updateMotionModel (predClamp s o) (trackSuccessPos s o)
            o.now).velocityY := by
        simp [locate, hta]
      rcases updateMotionModel_vel (predClamp s o)
          (trackSuccessPos s o) o.now with
        ⟨e1, e2⟩ | ⟨e1, e2⟩ | ⟨c1, c2, c3, c4⟩
      · rcases hpv with ⟨p1, p2⟩ | ⟨p1, p2⟩
        · exact absurd (Or.inl ⟨by rw [hvx, e1, p1],
            by rw [hvy, e2, p2]⟩) hne
        · exact absurd (Or.inr ⟨by rw [hvx, e1, p1],
            by rw [hvy, e2, p2]⟩) hne
      · exact absurd (Or.inr ⟨by rw [hvx, e1], by rw [hvy, e2]⟩) hne
      · rw [hpl] at c1
        rw [hpk] at c2
        rw [hpt] at c3 c4
        exact ⟨c1, c2, c3, c4⟩
    · have hloc : locate s o = globalPhase (predClamp s o) o := by
        simp [locate, hta]
      rw [hloc] at hsucc hne
      unfold globalPhase at hsucc hne
      rcases globalFinish_success_vel (predClamp s o) o _ pos hsucc with
        ⟨e1, e2⟩ | ⟨best, e1, e2⟩
      · exact absurd (Or.inr ⟨e1, e2⟩) hne
      · rcases updateMotionModel_vel (predClamp s o) best o.now with
          ⟨f1, f2⟩ | ⟨f1, f2⟩ | ⟨c1, c2, c3, c4⟩
        · rcases hpv with ⟨p1, p2⟩ | ⟨p1, p2⟩
          · exact absurd (Or.inl ⟨by rw [e1, f1, p1],
              by rw [e2, f2, p2]⟩) hne
          · exact absurd (Or.inr ⟨by rw [e1, f1, p1],
              by rw [e2, f2, p2]⟩) hne
        · exact absurd (Or.inr ⟨by rw [e1, f1], by rw [e2, f2]⟩) hne
        · rw [hpl] at c1
          rw [hpk] at c2
          rw [hpt] at c3 c4
          exact ⟨c1, c2, c3, c4⟩

/-- Witness for C7's amended theorem at a concrete miss from a state
with non-zero velocity. -/
theorem velocity_loss_and_ema_amended_witness :
    ((locate stateG2 frameNothing).1.velocityX = stateG2.velocityX ∧
      (locate stateG2 frameNothing).1.velocityY = stateG2.velocityY) ∨
    ((locate stateG2 frameNothing).1.velocityX = 0 ∧
      (locate stateG2 frameNothing).1.velocityY = 0) :=
  velocity_loss_and_ema_amended.1 stateG2 frameNothing
    (locate_miss_frameNothing stateG2)

end MapService
